import Mathlib

/-!
# Terraform AWS provider: Image Builder distribution-configurations data source,
# ACM PCA certificate and SNS topic acceptance-test checks

Shallow embedding of

* `internal/service/imagebuilder/distribution_configurations_data_source.go`
  (`dataSourceDistributionConfigurationsRead` and its page callback),
* `aws/resource_aws_acmpca_certificate_test.go`
  (`testAccCheckAwsAcmpcaCertificateDestroy`, `testAccCheckAwsAcmpcaCertificateExists`),
* `internal/service/sns/topic_test.go`
  (`testAccCheckTopicDestroy`, `testAccCheckTopicExists`, `testAccCheckTopicHasPolicy`,
  `testAccCheckTopicHasDeliveryPolicy`).

Conventions of the embedding:

* a Go pointer `*T` that may be nil is `Option T`;
* a Go `error` value is `Option GoError` (`none` is the nil error);
* a Go slice is a `List`; the nil slice and the empty slice are both `[]`;
* a Go `map[string]T` that is only ranged over or indexed is an association list;
  the order of the list is the order in which `range` visits the map;
* the remote API (AWS SDK connection) is an explicit collaborator passed as an argument;
* where a statement is about the remote calls that a check issues, the calls are recorded
  in a list, in the order in which they are issued.
-/

set_option autoImplicit false

/-! ## Go errors -/

/-- The Go `error` values that the embedded code can tell apart. -/
inductive GoError where
  /-- An `awserr.Error` of the AWS SDK, with its `Code()` and `Message()`. -/
  | awsErr (code : String) (message : String)
  /-- A `*resource.NotFoundError` of the plugin SDK (what `tfresource.NotFound` recognises). -/
  | notFoundError (message : String)
  /-- Any other error, such as the result of `fmt.Errorf` or `errors.New`. -/
  | errorString (message : String)
  deriving DecidableEq, Repr

namespace GoError

/-- The `Error()` method: the error's text. -/
def Error : GoError → String
  | awsErr code message => code ++ ": " ++ message
  | notFoundError message => message
  | errorString message => message

end GoError

/-- Go `strings.Contains` on character lists: `substr` occurs in `s`. -/
def containsChars (substr : List Char) : List Char → Bool
  | [] => substr.isEmpty
  | c :: cs => substr.isPrefixOf (c :: cs) || containsChars substr cs

/-- Go `strings.Contains(s, substr)`. -/
def stringsContains (s substr : String) : Bool :=
  containsChars substr.data s.data

namespace imagebuilder

/-! ## Image Builder data source: data model -/

/-- SDK type `imagebuilder.DistributionConfigurationSummary` (pointer fields are optional). -/
structure DistributionConfigurationSummary where
  Arn : Option String
  DateCreated : Option String
  DateUpdated : Option String
  Description : Option String
  Name : Option String
  deriving DecidableEq, Repr

/-- SDK type `imagebuilder.ListDistributionConfigurationsOutput`. -/
structure ListDistributionConfigurationsOutput where
  DistributionConfigurationSummaryList : List (Option DistributionConfigurationSummary)
  NextToken : Option String
  RequestId : Option String
  deriving DecidableEq, Repr

/-- SDK type `imagebuilder.Filter`. -/
structure Filter where
  Name : Option String
  Values : List (Option String)
  deriving DecidableEq, Repr

/-- SDK type `imagebuilder.ListDistributionConfigurationsInput`. -/
structure ListDistributionConfigurationsInput where
  Filters : List Filter
  MaxResults : Option Nat
  NextToken : Option String
  deriving DecidableEq, Repr

/-- SDK helper `aws.StringValue`: the string pointed to, or `""` for nil. -/
def StringValue : Option String → String
  | some s => s
  | none => ""

/-! ## The page callback (source lines 46-60) -/

/-- The inner `for ... range page.DistributionConfigurationSummaryList` loop of the callback:
nil summaries are skipped (`continue`), the others are appended to `results`. -/
def appendSummaries (results : List DistributionConfigurationSummary)
    (summaries : List (Option DistributionConfigurationSummary)) :
    List DistributionConfigurationSummary :=
  summaries.foldl
    (fun results distributionConfigurationSummary =>
      match distributionConfigurationSummary with
      | none => results
      | some s => results ++ [s])
    results

/-- The function literal passed to `ListDistributionConfigurationsPagesWithContext`.
The captured variable `results` is threaded explicitly; the second component is the
callback's return value ("fetch the next page"). -/
def pageCallback (results : List DistributionConfigurationSummary)
    (page : Option ListDistributionConfigurationsOutput) (lastPage : Bool) :
    List DistributionConfigurationSummary × Bool :=
  match page with
  | none => (results, !lastPage)
  | some page => (appendSummaries results page.DistributionConfigurationSummaryList, !lastPage)

/-! ## The SDK paginator -/

/-- What one call of `ListDistributionConfigurationsPagesWithContext` does, as seen by the
caller: the pages it hands to the callback, each with its `lastPage` flag, and the error it
finally returns. -/
structure ListPagesResponse where
  pages : List (Option ListDistributionConfigurationsOutput × Bool)
  err : Option GoError
  deriving DecidableEq, Repr

/-- The paginator loop of the SDK (`for p.Next() { if !fn(page, lastPage) { break } }`):
the callback is run on the pages in order and the loop stops as soon as it returns false. -/
def runPages {σ : Type} (fn : σ → Option ListDistributionConfigurationsOutput → Bool → σ × Bool) :
    σ → List (Option ListDistributionConfigurationsOutput × Bool) → σ
  | st, [] => st
  | st, (page, lastPage) :: rest =>
    match fn st page lastPage with
    | (st', true) => runPages fn st' rest
    | (st', false) => st'

/-- The value of `results` after the paginated call, from `var results` (nil). -/
def accumulate (pages : List (Option ListDistributionConfigurationsOutput × Bool)) :
    List DistributionConfigurationSummary :=
  runPages pageCallback [] pages

/-! ## The result projection (source lines 66-71) -/

/-- The loop `for _, r := range results` building `arns` and `names`. -/
def projectResults (results : List DistributionConfigurationSummary) :
    List String × List String :=
  results.foldl
    (fun acc r => (acc.1 ++ [StringValue r.Arn], acc.2 ++ [StringValue r.Name]))
    ([], [])

/-! ## The filter input (source lines 38-42) -/

/-- One `filter` block of the configuration: a name and its values, in input order. -/
structure FilterBlock where
  name : String
  values : List String
  deriving DecidableEq, Repr

/-- Adding one block to the name-to-values mapping built so far: the values of a name that
is already present are appended to that name's entry, a new name gets a new entry. -/
def addFilterBlock (name : String) (values : List String) :
    List (String × List String) → List (String × List String)
  | [] => [(name, values)]
  | (n, vs) :: rest =>
    if n = name then (n, vs ++ values) :: rest
    else (n, vs) :: addFilterBlock name values rest

/-- Modelled from the spec: `namevaluesfilters.New(v).ImagebuilderFilters()`, whose package
(`internal/generate/namevaluesfilters`) is not among the sources. Spec 4.2: the input is a
mapping from filter name to values; the output is a sequence of wire-format filter objects,
one per distinct name, each carrying its values as an ordered list matching insertion order;
empty input produces the empty sequence. -/
def ImagebuilderFilters (blocks : List FilterBlock) : List Filter :=
  (blocks.foldl (fun m b => addFilterBlock b.name b.values m) []).map
    (fun kv => { Name := some kv.1, Values := kv.2.map some })

/-! ## Resource data, client and diagnostics -/

/-- The part of `schema.ResourceData` that the data source reads and writes: the configured
`filter` blocks, the id, and the computed attributes `arns` and `names`, which the schema
declares as `schema.TypeSet` of `schema.TypeString`, hence sets of strings. -/
structure ResourceData where
  filter : List FilterBlock
  Id : String
  arns : Finset String
  names : Finset String
  deriving DecidableEq

namespace ResourceData

/-- The method `d.SetId`. -/
def SetId (d : ResourceData) (v : String) : ResourceData :=
  { d with Id := v }

/-- The method `d.Set(key, value)` for a `[]string` value: a `TypeSet` attribute stores the
set of the slice's elements; an unknown key leaves the data unchanged (the error that `Set`
returns is not looked at by the caller). -/
def Set (d : ResourceData) (key : String) (value : List String) : ResourceData :=
  if key = "arns" then { d with arns := value.toFinset }
  else if key = "names" then { d with names := value.toFinset }
  else d

end ResourceData

/-- The part of `conns.AWSClient` that the data source uses: the region, and the Image
Builder connection, given by what its paginated list call does for each request. -/
structure AWSClient where
  Region : String
  ImageBuilderConn : ListDistributionConfigurationsInput → ListPagesResponse

/-- Plugin SDK type `diag.Severity`. -/
inductive Severity where
  | Error
  | Warning
  deriving DecidableEq, Repr

/-- Plugin SDK type `diag.Diagnostic`. -/
structure Diagnostic where
  Severity : Severity
  Summary : String
  Detail : String
  deriving DecidableEq, Repr

/-- Plugin SDK type `diag.Diagnostics`. -/
abbrev Diagnostics := List Diagnostic

/-- Plugin SDK method `Diagnostics.HasError`. -/
def Diagnostics.HasError (diags : Diagnostics) : Bool :=
  diags.any (fun dg => dg.Severity = Severity.Error)

/-- Modelled from the spec: `sdkdiag.AppendErrorf(diags, format, err)` for the format
`"<text>: %s"`; its package (`internal/errs/sdkdiag`) is not among the sources. Spec 7: the
caller receives a propagated error with the original message intact. One error diagnostic
whose summary is the formatted text is appended to the diagnostics. -/
def AppendErrorf (diags : Diagnostics) (text : String) (err : GoError) : Diagnostics :=
  diags ++ [{ Severity := Severity.Error, Summary := text ++ err.Error, Detail := "" }]

/-! ## The read handler -/

/-- Source lines 38-42: the list request. `d.GetOk("filter")` reports `ok` exactly when the
set of filter blocks is not empty; otherwise `Filters` stays nil. -/
def listInput (d : ResourceData) : ListDistributionConfigurationsInput :=
  let input : ListDistributionConfigurationsInput :=
    { Filters := [], MaxResults := none, NextToken := none }
  if d.filter ≠ [] then { input with Filters := ImagebuilderFilters d.filter } else input

/-- The handler `dataSourceDistributionConfigurationsRead`: the resource data after the call
and the diagnostics returned. -/
def dataSourceDistributionConfigurationsRead (d : ResourceData) (client : AWSClient) :
    ResourceData × Diagnostics :=
  let diags : Diagnostics := []
  let input := listInput d
  let response := client.ImageBuilderConn input
  let results := accumulate response.pages
  match response.err with
  | some err => (d, AppendErrorf diags "reading Image Builder Distribution Configurations: " err)
  | none =>
    let arns := (projectResults results).1
    let names := (projectResults results).2
    let d := d.SetId client.Region
    let d := d.Set "arns" arns
    let d := d.Set "names" names
    (d, diags)

end imagebuilder

/-! ## Terraform state seen by the acceptance-test checks -/

namespace terraform

/-- Plugin SDK type `terraform.InstanceState`: the id and the attribute map. -/
structure InstanceState where
  ID : String
  Attributes : List (String × String)
  deriving DecidableEq, Repr

/-- Plugin SDK type `terraform.ResourceState`; `Type_` is its field `Type`. The pointer
`Primary` is taken to be non-nil, as the checks dereference it without a test. -/
structure ResourceState where
  Type_ : String
  Primary : InstanceState
  deriving DecidableEq, Repr

/-- The map `s.RootModule().Resources` of a `terraform.State`, as the list of its entries
in the order in which a `range` over the map visits them. -/
structure State where
  Resources : List (String × ResourceState)
  deriving DecidableEq, Repr

/-- Go map indexing `m[key]` on a `map[string]string`: the zero value `""` when absent. -/
def index (m : List (String × String)) (key : String) : String :=
  (m.lookup key).getD ""

end terraform

/-! ## ACM PCA certificate checks -/

namespace acmpca

open terraform

/-- SDK constant `acmpca.ErrCodeResourceNotFoundException`. -/
def ErrCodeResourceNotFoundException : String := "ResourceNotFoundException"

/-- SDK constant `acmpca.ErrCodeInvalidStateException`. -/
def ErrCodeInvalidStateException : String := "InvalidStateException"

/-- SDK type `acmpca.GetCertificateInput`. -/
structure GetCertificateInput where
  CertificateArn : Option String
  CertificateAuthorityArn : Option String
  deriving DecidableEq, Repr

/-- SDK type `acmpca.GetCertificateOutput`. -/
structure GetCertificateOutput where
  Certificate : Option String
  CertificateChain : Option String
  deriving DecidableEq, Repr

/-- The ACM PCA connection: what `conn.GetCertificate(input)` returns, the Go pair
`(output, err)`. -/
abbrev Conn := GetCertificateInput → Option GetCertificateOutput × Option GoError

/-- Helper `tfawserr.ErrCodeEquals(err, code)`: `err` is an `awserr.Error` with that code. -/
def ErrCodeEquals : Option GoError → String → Bool
  | some (GoError.awsErr c _), code => c == code
  | _, _ => false

/-- Helper `tfawserr.ErrMessageContains(err, code, message)`: `err` is an `awserr.Error` with
that code whose message contains `message`. -/
def ErrMessageContains : Option GoError → String → String → Bool
  | some (GoError.awsErr c m), code, message => c == code && stringsContains m message
  | _, _, _ => false

/-- The request built from a resource of the state (source lines 111-114 and 144-147). -/
def getCertificateInput (rs : ResourceState) : GetCertificateInput :=
  { CertificateArn := some rs.Primary.ID,
    CertificateAuthorityArn := some (index rs.Primary.Attributes "certificate_authority_arn") }

/-- The loop of `testAccCheckAwsAcmpcaCertificateDestroy` over the resources still to visit. -/
def destroyLoop (conn : Conn) : List (String × ResourceState) → Option GoError
  | [] => none
  | (_, rs) :: rest =>
    if rs.Type_ ≠ "aws_acmpca_certificate" then destroyLoop conn rest
    else
      match conn (getCertificateInput rs) with
      | (output, err) =>
        if ErrCodeEquals err ErrCodeResourceNotFoundException then none
        else if ErrMessageContains err ErrCodeInvalidStateException
            "not in the correct state to have issued certificates" then none
        else if err ≠ none then err
        else if output ≠ none then
          some (GoError.errorString
            ("ACM PCA Certificate (" ++ rs.Primary.ID ++ ") still exists"))
        else destroyLoop conn rest

/-- The check `testAccCheckAwsAcmpcaCertificateDestroy`; `none` is the nil error. -/
def testAccCheckAwsAcmpcaCertificateDestroy (conn : Conn) (s : State) : Option GoError :=
  destroyLoop conn s.Resources

/-- The check `testAccCheckAwsAcmpcaCertificateExists(resourceName)`. The verb `%q` of
`fmt.Errorf` (Go's `strconv.Quote`) belongs to the standard library and is taken as the
argument `Quote`. -/
def testAccCheckAwsAcmpcaCertificateExists (Quote : String → String) (conn : Conn)
    (resourceName : String) (s : State) : Option GoError :=
  match s.Resources.lookup resourceName with
  | none => some (GoError.errorString ("Not found: " ++ resourceName))
  | some rs =>
    match conn (getCertificateInput rs) with
    | (output, err) =>
      if err ≠ none then err
      else
        match output with
        | none =>
          some (GoError.errorString
            ("ACM PCA Certificate " ++ Quote rs.Primary.ID ++ " does not exist"))
        | some out =>
          if out.Certificate = none then
            some (GoError.errorString
              ("ACM PCA Certificate " ++ Quote rs.Primary.ID ++ " does not exist"))
          else none

end acmpca

/-! ## SNS topic checks -/

namespace sns

open terraform

/-- The lookup `tfsns.FindTopicAttributesByARN(ctx, conn, arn)` with the connection fixed:
the Go pair `(attributes, err)` for each topic ARN. The finder is not among the sources and
is taken as the remote collaborator. -/
abbrev Finder := String → List (String × String) × Option GoError

/-- Helper `tfresource.NotFound(err)`: `err` is a `*resource.NotFoundError`. -/
def NotFound : Option GoError → Bool
  | some (GoError.notFoundError _) => true
  | _ => false

/-- The loop of `testAccCheckTopicDestroy` over the resources still to visit. -/
def destroyLoop (find : Finder) : List (String × ResourceState) → Option GoError
  | [] => none
  | (_, rs) :: rest =>
    if rs.Type_ ≠ "aws_sns_topic" then destroyLoop find rest
    else
      match find rs.Primary.ID with
      | (_, err) =>
        if NotFound err then destroyLoop find rest
        else if err ≠ none then err
        else some (GoError.errorString ("SNS Topic " ++ rs.Primary.ID ++ " still exists"))

/-- The check `testAccCheckTopicDestroy(ctx)`; `none` is the nil error. -/
def testAccCheckTopicDestroy (find : Finder) (s : State) : Option GoError :=
  destroyLoop find s.Resources

end sns

/-! ## Specification-side vocabulary -/

namespace imagebuilder

/-- The non-nil summaries of one delivered page, in their original order (a nil page has
none). This is the wording of the specification, not a translation of source code. -/
def nonNilSummaries : Option ListDistributionConfigurationsOutput →
    List DistributionConfigurationSummary
  | none => []
  | some page => page.DistributionConfigurationSummaryList.reduceOption

/-! ## Concrete inputs used by the closed statements below -/

/-- A summary with ARN `arn:a` and no name. -/
def summaryA : DistributionConfigurationSummary :=
  { Arn := some "arn:a", DateCreated := none, DateUpdated := none, Description := none,
    Name := none }

/-- A summary with ARN `arn:b` and no name. -/
def summaryB : DistributionConfigurationSummary :=
  { Arn := some "arn:b", DateCreated := none, DateUpdated := none, Description := none,
    Name := none }

/-- A page holding `summaryA`, a nil entry and `summaryB`. -/
def pageAB : ListDistributionConfigurationsOutput :=
  { DistributionConfigurationSummaryList := [some summaryA, none, some summaryB],
    NextToken := none, RequestId := none }

/-- Resource data before the read: no filter, nothing set. -/
def freshData : ResourceData :=
  { filter := [], Id := "", arns := ∅, names := ∅ }

/-- A client whose list call delivers `pageAB` as the only page and succeeds. -/
def clientOk : AWSClient :=
  { Region := "us-east-1",
    ImageBuilderConn := fun _ => { pages := [(some pageAB, true)], err := none } }

/-- A client whose list call delivers `pageAB`, not flagged last, and then fails. -/
def clientErr : AWSClient :=
  { Region := "us-east-1",
    ImageBuilderConn := fun _ =>
      { pages := [(some pageAB, false)],
        err := some (GoError.awsErr "ThrottlingException" "Rate exceeded") } }

end imagebuilder

namespace acmpca

open terraform

/-- A lookup error resolves to NotFound for the destroy check: it is a
`ResourceNotFoundException`, or an `InvalidStateException` whose message contains the
documented substring. This is the wording of the specification. -/
def resolvesToNotFound (err : Option GoError) : Bool :=
  ErrCodeEquals err ErrCodeResourceNotFoundException
    || ErrMessageContains err ErrCodeInvalidStateException
        "not in the correct state to have issued certificates"

/-- The resource is one that the destroy check tracks. -/
def tracked (p : String × ResourceState) : Bool :=
  decide (p.2.Type_ = "aws_acmpca_certificate")

/-- A tracked certificate with id `arn:a`. -/
def certA : ResourceState :=
  { Type_ := "aws_acmpca_certificate",
    Primary := { ID := "arn:a", Attributes := [("certificate_authority_arn", "arn:ca")] } }

/-- A tracked certificate with id `arn:b`. -/
def certB : ResourceState :=
  { Type_ := "aws_acmpca_certificate",
    Primary := { ID := "arn:b", Attributes := [("certificate_authority_arn", "arn:ca")] } }

/-- A resource of another type (the certificate authority). -/
def authority : ResourceState :=
  { Type_ := "aws_acmpca_certificate_authority",
    Primary := { ID := "arn:ca", Attributes := [] } }

/-- An output holding a certificate. -/
def issued : GetCertificateOutput :=
  { Certificate := some "-----BEGIN CERTIFICATE-----", CertificateChain := none }

/-- A connection for which `arn:a` fails with an access error and `arn:b` is found. -/
def connDeniedThenFound : Conn := fun input =>
  if input.CertificateArn = some "arn:a" then
    (none, some (GoError.awsErr "AccessDeniedException" "not authorized"))
  else (some issued, none)

/-- A connection for which `arn:a` is not found and every other certificate is found. -/
def connGoneThenFound : Conn := fun input =>
  if input.CertificateArn = some "arn:a" then
    (none, some (GoError.awsErr "ResourceNotFoundException" "no such certificate"))
  else (some issued, none)

/-- A connection for which every certificate is found. -/
def connFound : Conn := fun _ => (some issued, none)

/-- A connection that answers every lookup with the documented wrong-state error. -/
def connWrongState : Conn := fun _ =>
  (none, some (GoError.awsErr "InvalidStateException"
    "The certificate authority is not in the correct state to have issued certificates"))

/-- A connection that answers every lookup with an `InvalidStateException` of another
message. -/
def connOtherState : Conn := fun _ =>
  (none, some (GoError.awsErr "InvalidStateException" "The certificate authority is disabled"))

/-- The state visited as authority, `certA`, `certB`. -/
def stateAB : State :=
  { Resources := [("aws_acmpca_certificate_authority.test", authority),
      ("aws_acmpca_certificate.a", certA), ("aws_acmpca_certificate.b", certB)] }

/-- The state visited as authority, `certA`. -/
def stateA : State :=
  { Resources := [("aws_acmpca_certificate_authority.test", authority),
      ("aws_acmpca_certificate.a", certA)] }

end acmpca

namespace sns

open terraform

/-- The resource is one that the topic destroy check tracks. -/
def tracked (p : String × ResourceState) : Bool :=
  decide (p.2.Type_ = "aws_sns_topic")

end sns

/-! ## The remote calls that the checks issue -/

namespace acmpca

open terraform

/-- The `GetCertificate` requests that `testAccCheckAwsAcmpcaCertificateDestroy` issues, in
order, over the resources still to visit: the same loop as `destroyLoop`, recording each
`conn.GetCertificate(input)` instead of the returned error. -/
def destroyLoopCalls (conn : Conn) : List (String × ResourceState) → List GetCertificateInput
  | [] => []
  | (_, rs) :: rest =>
    if rs.Type_ ≠ "aws_acmpca_certificate" then destroyLoopCalls conn rest
    else
      match conn (getCertificateInput rs) with
      | (output, err) =>
        if ErrCodeEquals err ErrCodeResourceNotFoundException then [getCertificateInput rs]
        else if ErrMessageContains err ErrCodeInvalidStateException
            "not in the correct state to have issued certificates" then [getCertificateInput rs]
        else if err ≠ none then [getCertificateInput rs]
        else if output ≠ none then [getCertificateInput rs]
        else getCertificateInput rs :: destroyLoopCalls conn rest

/-- The `GetCertificate` requests that `testAccCheckAwsAcmpcaCertificateExists(resourceName)`
issues: none when the resource is missing from the state (the function returns before the
call), otherwise the one request built from the resource. -/
def testAccCheckAwsAcmpcaCertificateExistsCalls (resourceName : String) (s : State) :
    List GetCertificateInput :=
  match s.Resources.lookup resourceName with
  | none => []
  | some rs => [getCertificateInput rs]

/-- An output without a certificate. -/
def pending : GetCertificateOutput :=
  { Certificate := none, CertificateChain := none }

/-- A connection that answers every lookup with an output without a certificate. -/
def connPending : Conn := fun _ => (some pending, none)

end acmpca

namespace sns

open terraform

/-- The topic ARNs that `testAccCheckTopicDestroy` passes to the finder, in order, over the
resources still to visit: the same loop as `destroyLoop`, recording each lookup. -/
def destroyLoopCalls (find : Finder) : List (String × ResourceState) → List String
  | [] => []
  | (_, rs) :: rest =>
    if rs.Type_ ≠ "aws_sns_topic" then destroyLoopCalls find rest
    else
      match find rs.Primary.ID with
      | (_, err) =>
        if NotFound err then rs.Primary.ID :: destroyLoopCalls find rest
        else if err ≠ none then [rs.Primary.ID]
        else [rs.Primary.ID]

/-- What one run of a topic check does: the error it returns and the topic ARNs it passes
to the finder, in order. -/
structure CheckRun where
  err : Option GoError
  lookups : List String
  deriving DecidableEq, Repr

/-- The check `testAccCheckTopicExists(ctx, n, v)`: the run, and the map that `v` points to
after the call (`v` is its content before the call). -/
def testAccCheckTopicExists (find : Finder) (n : String) (v : List (String × String))
    (s : State) : CheckRun × List (String × String) :=
  match s.Resources.lookup n with
  | none => ({ err := some (GoError.errorString ("Not found: " ++ n)), lookups := [] }, v)
  | some rs =>
    if rs.Primary.ID = "" then
      ({ err := some (GoError.errorString "No SNS Topic ID is set"), lookups := [] }, v)
    else
      match find rs.Primary.ID with
      | (output, err) =>
        if err ≠ none then ({ err := err, lookups := [rs.Primary.ID] }, v)
        else ({ err := none, lookups := [rs.Primary.ID] }, output)

/-- The check `testAccCheckTopicHasPolicy(ctx, n, expectedPolicyText)`. The constant
`tfsns.TopicAttributeNamePolicy` and the library function `awspolicy.PoliciesAreEquivalent`
are not among the sources and are taken as arguments. -/
def testAccCheckTopicHasPolicy (find : Finder) (TopicAttributeNamePolicy : String)
    (PoliciesAreEquivalent : String → String → Bool × Option GoError)
    (n expectedPolicyText : String) (s : State) : CheckRun :=
  match s.Resources.lookup n with
  | none => { err := some (GoError.errorString ("Not found: " ++ n)), lookups := [] }
  | some rs =>
    if rs.Primary.ID = "" then
      { err := some (GoError.errorString "No SNS Topic ID is set"), lookups := [] }
    else
      match find rs.Primary.ID with
      | (attributes, err) =>
        if err ≠ none then { err := err, lookups := [rs.Primary.ID] }
        else
          let actualPolicyText := index attributes TopicAttributeNamePolicy
          if actualPolicyText = "" then
            { err := some (GoError.errorString
                ("SNS Topic Policy (" ++ rs.Primary.ID ++ ") not found")),
              lookups := [rs.Primary.ID] }
          else
            match PoliciesAreEquivalent actualPolicyText expectedPolicyText with
            | (_, some e) =>
              { err := some (GoError.errorString
                  ("Error testing policy equivalence: " ++ e.Error)),
                lookups := [rs.Primary.ID] }
            | (equivalent, none) =>
              if !equivalent then
                { err := some (GoError.errorString
                    ("Non-equivalent policy error:\n\nexpected: " ++ expectedPolicyText
                      ++ "\n\n     got: " ++ actualPolicyText)),
                  lookups := [rs.Primary.ID] }
              else { err := none, lookups := [rs.Primary.ID] }

/-- The check `testAccCheckTopicHasDeliveryPolicy(ctx, n, expectedPolicyText)`. The constant
`tfsns.TopicAttributeNameDeliveryPolicy` and the helper `verify.SuppressEquivalentJSONDiffs`
(called with key `""` and a nil resource data) are not among the sources and are taken as
arguments. -/
def testAccCheckTopicHasDeliveryPolicy (find : Finder)
    (TopicAttributeNameDeliveryPolicy : String)
    (SuppressEquivalentJSONDiffs : String → String → String → Bool)
    (n expectedPolicyText : String) (s : State) : CheckRun :=
  match s.Resources.lookup n with
  | none => { err := some (GoError.errorString ("Not found: " ++ n)), lookups := [] }
  | some rs =>
    if rs.Primary.ID = "" then
      { err := some (GoError.errorString "No SNS Topic ID is set"), lookups := [] }
    else
      match find rs.Primary.ID with
      | (attributes, err) =>
        if err ≠ none then { err := err, lookups := [rs.Primary.ID] }
        else
          let actualPolicyText := index attributes TopicAttributeNameDeliveryPolicy
          if actualPolicyText = "" then
            { err := some (GoError.errorString
                ("SNS Topic Delivery Policy (" ++ rs.Primary.ID ++ ") not found")),
              lookups := [rs.Primary.ID] }
          else
            let equivalent := SuppressEquivalentJSONDiffs "" actualPolicyText expectedPolicyText
            if !equivalent then
              { err := some (GoError.errorString
                  ("Non-equivalent delivery policy error:\n\nexpected: " ++ expectedPolicyText
                    ++ "\n\n     got: " ++ actualPolicyText)),
                lookups := [rs.Primary.ID] }
            else { err := none, lookups := [rs.Primary.ID] }

/-- A tracked topic with id `arn:aws:sns:a`. -/
def topicA : ResourceState :=
  { Type_ := "aws_sns_topic", Primary := { ID := "arn:aws:sns:a", Attributes := [] } }

/-- A tracked topic with id `arn:aws:sns:b`. -/
def topicB : ResourceState :=
  { Type_ := "aws_sns_topic", Primary := { ID := "arn:aws:sns:b", Attributes := [] } }

/-- A topic whose id is the empty string. -/
def topicNoId : ResourceState :=
  { Type_ := "aws_sns_topic", Primary := { ID := "", Attributes := [] } }

/-- A resource of another type. -/
def queue : ResourceState :=
  { Type_ := "aws_sqs_queue", Primary := { ID := "https://sqs/q", Attributes := [] } }

/-- A finder for which `arn:aws:sns:a` is not found and every other topic is found. -/
def findAGone : Finder := fun arn =>
  if arn = "arn:aws:sns:a" then ([], some (GoError.notFoundError "couldn't find resource"))
  else ([("TopicArn", arn)], none)

/-- The state visited as queue, `topicA`, `topicB`. -/
def stateTopics : State :=
  { Resources := [("aws_sqs_queue.test", queue), ("aws_sns_topic.a", topicA),
      ("aws_sns_topic.b", topicB)] }

/-- The state holding only the topic without id, under the name `aws_sns_topic.test`. -/
def stateTopicNoId : State :=
  { Resources := [("aws_sns_topic.test", topicNoId)] }

end sns

namespace imagebuilder

/-- Resource data with three filter blocks, two of them for the name `name`. -/
def filteredData : ResourceData :=
  { filter := [{ name := "name", values := ["a", "b"] }, { name := "arn", values := ["x"] },
      { name := "name", values := ["c"] }],
    Id := "", arns := ∅, names := ∅ }

/-- The values that the filter blocks give for a name, in input order. This is the wording
of the specification. -/
def valuesOf (name : String) (blocks : List FilterBlock) : List String :=
  (blocks.filter (fun b => b.name = name)).flatMap (fun b => b.values)

end imagebuilder

/-! ## Further concrete inputs -/

namespace imagebuilder

/-- A page without summaries. -/
def pageEmpty : ListDistributionConfigurationsOutput :=
  { DistributionConfigurationSummaryList := [], NextToken := none, RequestId := none }

/-- A page whose summaries are all nil. -/
def pageOnlyNil : ListDistributionConfigurationsOutput :=
  { DistributionConfigurationSummaryList := [none, none], NextToken := none,
    RequestId := none }

/-- A client whose list call delivers a nil page, an empty page and a page of nil summaries,
and succeeds. -/
def clientNoItems : AWSClient :=
  { Region := "eu-west-1",
    ImageBuilderConn := fun _ =>
      { pages := [(none, false), (some pageEmpty, false), (some pageOnlyNil, true)],
        err := none } }

/-- Resource data left by an earlier read: an id and non-empty attributes. -/
def staleData : ResourceData :=
  { filter := [], Id := "us-east-1", arns := {"arn:old"}, names := {"old"} }

end imagebuilder

/-! ## The list request issued by the read handler -/

namespace imagebuilder

/-- The requests that `dataSourceDistributionConfigurationsRead` passes to
`ListDistributionConfigurationsPagesWithContext`: the single call of source line 46, made
unconditionally with the `input` built in source lines 38-42. -/
def dataSourceDistributionConfigurationsReadRequests (d : ResourceData) :
    List ListDistributionConfigurationsInput :=
  [listInput d]

end imagebuilder

/-! ## The SDK client in front of the ACM PCA service -/

namespace acmpca

open terraform

/-- A connection for which `arn:a` fails with an access error and every other lookup returns
an output without a certificate. -/
def connDeniedThenPending : Conn := fun input =>
  if input.CertificateArn = some "arn:a" then
    (none, some (GoError.awsErr "AccessDeniedException" "not authorized"))
  else (some pending, none)

end acmpca

namespace imagebuilder

/-! ## Lemmas on the page callback and the projection -/

theorem appendSummaries_eq (results : List DistributionConfigurationSummary)
    (summaries : List (Option DistributionConfigurationSummary)) :
    appendSummaries results summaries = results ++ summaries.reduceOption := by
  unfold appendSummaries
  induction summaries generalizing results with
  | nil => simp
  | cons s rest ih =>
    cases s with
    | none => simpa [List.reduceOption_cons_of_none] using ih results
    | some x =>
      simp only [List.foldl_cons, List.reduceOption_cons_of_some]
      rw [ih (results ++ [x])]
      simp

theorem pageCallback_fst (results : List DistributionConfigurationSummary)
    (page : Option ListDistributionConfigurationsOutput) (lastPage : Bool) :
    (pageCallback results page lastPage).1 = results ++ nonNilSummaries page := by
  cases page with
  | none => simp [pageCallback, nonNilSummaries]
  | some p => simp [pageCallback, nonNilSummaries, appendSummaries_eq]

theorem pageCallback_snd (results : List DistributionConfigurationSummary)
    (page : Option ListDistributionConfigurationsOutput) (lastPage : Bool) :
    (pageCallback results page lastPage).2 = !lastPage := by
  cases page <;> rfl

theorem pageCallback_eq (results : List DistributionConfigurationSummary)
    (page : Option ListDistributionConfigurationsOutput) (lastPage : Bool) :
    pageCallback results page lastPage = (results ++ nonNilSummaries page, !lastPage) := by
  rw [← pageCallback_fst results page lastPage, ← pageCallback_snd results page lastPage]

theorem runPages_cons_more (results : List DistributionConfigurationSummary)
    (page : Option ListDistributionConfigurationsOutput)
    (rest : List (Option ListDistributionConfigurationsOutput × Bool)) :
    runPages pageCallback results ((page, false) :: rest)
      = runPages pageCallback (results ++ nonNilSummaries page) rest := by
  simp [runPages, pageCallback_eq]

theorem runPages_cons_last (results : List DistributionConfigurationSummary)
    (page : Option ListDistributionConfigurationsOutput)
    (rest : List (Option ListDistributionConfigurationsOutput × Bool)) :
    runPages pageCallback results ((page, true) :: rest) = results ++ nonNilSummaries page := by
  simp [runPages, pageCallback_eq]

theorem runPages_more_append (front : List (Option ListDistributionConfigurationsOutput))
    (results : List DistributionConfigurationSummary)
    (rest : List (Option ListDistributionConfigurationsOutput × Bool)) :
    runPages pageCallback results (front.map (fun p => (p, false)) ++ rest)
      = runPages pageCallback (results ++ front.flatMap nonNilSummaries) rest := by
  induction front generalizing results with
  | nil => simp
  | cons p ps ih =>
    simp only [List.map_cons, List.cons_append, List.flatMap_cons]
    rw [runPages_cons_more, ih, List.append_assoc]

theorem projectResults_aux (results : List DistributionConfigurationSummary)
    (acc : List String × List String) :
    results.foldl
        (fun acc r => (acc.1 ++ [StringValue r.Arn], acc.2 ++ [StringValue r.Name])) acc
      = (acc.1 ++ results.map (fun r => StringValue r.Arn),
         acc.2 ++ results.map (fun r => StringValue r.Name)) := by
  induction results generalizing acc with
  | nil => simp
  | cons r rs ih => simp [ih]

theorem projectResults_eq (results : List DistributionConfigurationSummary) :
    projectResults results
      = (results.map (fun r => StringValue r.Arn), results.map (fun r => StringValue r.Name)) := by
  unfold projectResults
  rw [projectResults_aux]
  simp

theorem read_of_err (d : ResourceData) (client : AWSClient) (e : GoError)
    (h : (client.ImageBuilderConn (listInput d)).err = some e) :
    dataSourceDistributionConfigurationsRead d client
      = (d, AppendErrorf [] "reading Image Builder Distribution Configurations: " e) := by
  simp [dataSourceDistributionConfigurationsRead, h]

theorem read_of_ok (d : ResourceData) (client : AWSClient)
    (h : (client.ImageBuilderConn (listInput d)).err = none) :
    dataSourceDistributionConfigurationsRead d client
      = (((d.SetId client.Region).Set "arns"
            (projectResults (accumulate (client.ImageBuilderConn (listInput d)).pages)).1).Set
          "names" (projectResults (accumulate (client.ImageBuilderConn (listInput d)).pages)).2,
         []) := by
  simp [dataSourceDistributionConfigurationsRead, h]

end imagebuilder

/-! ## Image Builder data source: the claims -/

namespace imagebuilder

/-- C1: for every sequence of pages delivered to the page callback, the last one flagged
`lastPage`, the accumulated results are exactly the non-nil summaries of the first page, then
of the second page, and so on, each page's summaries in their original order; the ARN list
and the name list are the ARNs and the names of exactly these summaries, in that order. -/
theorem C1_accumulate_pages_in_order (front : List (Option ListDistributionConfigurationsOutput))
    (last : Option ListDistributionConfigurationsOutput) :
    accumulate (front.map (fun p => (p, false)) ++ [(last, true)])
        = (front ++ [last]).flatMap nonNilSummaries
      ∧ (projectResults (accumulate (front.map (fun p => (p, false)) ++ [(last, true)]))).1
        = ((front ++ [last]).flatMap nonNilSummaries).map (fun r => StringValue r.Arn)
      ∧ (projectResults (accumulate (front.map (fun p => (p, false)) ++ [(last, true)]))).2
        = ((front ++ [last]).flatMap nonNilSummaries).map (fun r => StringValue r.Name) := by
  have hacc : accumulate (front.map (fun p => (p, false)) ++ [(last, true)])
      = (front ++ [last]).flatMap nonNilSummaries := by
    unfold accumulate
    rw [runPages_more_append, runPages_cons_last]
    simp [List.flatMap_append]
  refine ⟨hacc, ?_, ?_⟩
  · rw [hacc, projectResults_eq]
  · rw [hacc, projectResults_eq]

/-- C2: if the paginated list call returns an error, the read handler returns error
diagnostics and leaves the resource data (id, `arns`, `names`) exactly as it was before the
call, whatever pages and items were delivered before the failure. -/
theorem C2_read_error_leaves_data_unchanged (d : ResourceData) (client : AWSClient)
    (e : GoError) (h : (client.ImageBuilderConn (listInput d)).err = some e) :
    (dataSourceDistributionConfigurationsRead d client).1 = d
      ∧ (dataSourceDistributionConfigurationsRead d client).2.HasError = true := by
  rw [read_of_err d client e h]
  simp [AppendErrorf, Diagnostics.HasError]

/-- Witness of C2: a call that delivers a page with two summaries and then fails. -/
theorem C2_read_error_leaves_data_unchanged_witness :
    (clientErr.ImageBuilderConn (listInput freshData)).err
        = some (GoError.awsErr "ThrottlingException" "Rate exceeded")
      ∧ (dataSourceDistributionConfigurationsRead freshData clientErr).1 = freshData
      ∧ (dataSourceDistributionConfigurationsRead freshData clientErr).2.HasError = true :=
  ⟨rfl, C2_read_error_leaves_data_unchanged freshData clientErr
    (GoError.awsErr "ThrottlingException" "Rate exceeded") rfl⟩

/-- C3: for every list of items handed to the accumulator, the ARN list and the name list
have the same length, the number of non-nil items; the i-th ARN and the i-th name come from
the i-th accumulated item; a nil `Arn` or `Name` pointer contributes the empty string. -/
theorem C3_projection_parallel (items : List (Option DistributionConfigurationSummary)) :
    (projectResults (appendSummaries [] items)).1.length
        = (projectResults (appendSummaries [] items)).2.length
      ∧ (projectResults (appendSummaries [] items)).1.length
        = (items.filter Option.isSome).length
      ∧ (∀ i : Nat, (projectResults (appendSummaries [] items)).1[i]?
          = ((appendSummaries [] items)[i]?).map (fun r => StringValue r.Arn))
      ∧ (∀ i : Nat, (projectResults (appendSummaries [] items)).2[i]?
          = ((appendSummaries [] items)[i]?).map (fun r => StringValue r.Name))
      ∧ StringValue none = "" := by
  rw [projectResults_eq, appendSummaries_eq]
  simp [List.reduceOption_length_eq, StringValue]

/-- Counterexample to C4 as stated: two non-nil items with distinct ARNs and both names
missing give an `arns` attribute of two elements and a `names` attribute of one element. -/
theorem C4_attributes_parallel_counterexample :
    (clientOk.ImageBuilderConn (listInput freshData)).err = none
      ∧ (nonNilSummaries (some pageAB)).length = 2
      ∧ (dataSourceDistributionConfigurationsRead freshData clientOk).1.arns.card = 2
      ∧ (dataSourceDistributionConfigurationsRead freshData clientOk).1.names.card = 1
      ∧ (dataSourceDistributionConfigurationsRead freshData clientOk).1.arns.card
        ≠ (dataSourceDistributionConfigurationsRead freshData clientOk).1.names.card := by
  decide

/-- C4 as amended: on a successful read the ARN list and the name list are parallel, one
element per accumulated (non-nil) item; the exposed `arns` and `names` attributes are the
sets of the strings occurring in these lists, so each has at most one element per item. -/
theorem C4_attributes_are_sets_of_parallel_lists (d : ResourceData) (client : AWSClient)
    (h : (client.ImageBuilderConn (listInput d)).err = none) :
    (dataSourceDistributionConfigurationsRead d client).1.arns
        = (projectResults (accumulate (client.ImageBuilderConn (listInput d)).pages)).1.toFinset
      ∧ (dataSourceDistributionConfigurationsRead d client).1.names
        = (projectResults (accumulate (client.ImageBuilderConn (listInput d)).pages)).2.toFinset
      ∧ (projectResults (accumulate (client.ImageBuilderConn (listInput d)).pages)).1.length
        = (accumulate (client.ImageBuilderConn (listInput d)).pages).length
      ∧ (projectResults (accumulate (client.ImageBuilderConn (listInput d)).pages)).2.length
        = (accumulate (client.ImageBuilderConn (listInput d)).pages).length
      ∧ (dataSourceDistributionConfigurationsRead d client).1.arns.card
        ≤ (accumulate (client.ImageBuilderConn (listInput d)).pages).length
      ∧ (dataSourceDistributionConfigurationsRead d client).1.names.card
        ≤ (accumulate (client.ImageBuilderConn (listInput d)).pages).length := by
  rw [read_of_ok d client h, projectResults_eq]
  refine ⟨by simp [ResourceData.Set, ResourceData.SetId],
    by simp [ResourceData.Set, ResourceData.SetId], by simp, by simp, ?_, ?_⟩
  · simpa [ResourceData.Set, ResourceData.SetId] using
      List.toFinset_card_le
        ((accumulate (client.ImageBuilderConn (listInput d)).pages).map
          (fun r => StringValue r.Arn))
  · simpa [ResourceData.Set, ResourceData.SetId] using
      List.toFinset_card_le
        ((accumulate (client.ImageBuilderConn (listInput d)).pages).map
          (fun r => StringValue r.Name))

/-- Witness of amended C4: the successful read of one page with two summaries. -/
theorem C4_attributes_are_sets_of_parallel_lists_witness :
    (clientOk.ImageBuilderConn (listInput freshData)).err = none
      ∧ (dataSourceDistributionConfigurationsRead freshData clientOk).1.arns
        = (projectResults
            (accumulate (clientOk.ImageBuilderConn (listInput freshData)).pages)).1.toFinset :=
  ⟨rfl, (C4_attributes_are_sets_of_parallel_lists freshData clientOk rfl).1⟩

/-- C10: the page callback asks for the next page exactly when the page is not flagged as
last, whatever the page holds (nil page, no summaries, only nil summaries); after a page that
is not the last one the paginator goes on with the remaining pages. -/
theorem C10_callback_continues_iff_not_last (results : List DistributionConfigurationSummary)
    (page : Option ListDistributionConfigurationsOutput) (lastPage : Bool) :
    ((pageCallback results page lastPage).2 = true ↔ lastPage = false)
      ∧ ∀ rest : List (Option ListDistributionConfigurationsOutput × Bool),
          runPages pageCallback results ((page, false) :: rest)
            = runPages pageCallback (pageCallback results page false).1 rest := by
  constructor
  · rw [pageCallback_snd]
    cases lastPage <;> simp
  · intro rest
    rw [runPages_cons_more, pageCallback_fst]

end imagebuilder

/-! ## ACM PCA certificate checks: lemmas -/

namespace acmpca

open terraform

theorem destroyLoop_cons_untracked (conn : Conn) (p : String × ResourceState)
    (rest : List (String × ResourceState)) (h : tracked p = false) :
    destroyLoop conn (p :: rest) = destroyLoop conn rest := by
  obtain ⟨n, rs⟩ := p
  have h' : rs.Type_ ≠ "aws_acmpca_certificate" := by simpa [tracked] using h
  simp [destroyLoop, h']

theorem destroyLoop_cons_tracked (conn : Conn) (p : String × ResourceState)
    (rest : List (String × ResourceState)) (h : tracked p = true) :
    destroyLoop conn (p :: rest)
      = if resolvesToNotFound (conn (getCertificateInput p.2)).2 then none
        else if (conn (getCertificateInput p.2)).2 ≠ none then (conn (getCertificateInput p.2)).2
        else if (conn (getCertificateInput p.2)).1 ≠ none then
          some (GoError.errorString ("ACM PCA Certificate (" ++ p.2.Primary.ID ++ ") still exists"))
        else destroyLoop conn rest := by
  obtain ⟨n, rs⟩ := p
  have h' : rs.Type_ = "aws_acmpca_certificate" := by simpa [tracked] using h
  rcases hc : conn (getCertificateInput rs) with ⟨output, err⟩
  simp only [destroyLoop, h', hc, resolvesToNotFound]
  by_cases h1 : ErrCodeEquals err ErrCodeResourceNotFoundException = true
  · simp [h1]
  · by_cases h2 : ErrMessageContains err ErrCodeInvalidStateException
        "not in the correct state to have issued certificates" = true
    · simp [h1, h2]
    · simp [h1, h2]

theorem destroyLoop_filter (conn : Conn) (l : List (String × ResourceState)) :
    destroyLoop conn l = destroyLoop conn (l.filter tracked) := by
  induction l with
  | nil => rfl
  | cons p rest ih =>
    cases h : tracked p with
    | false => rw [destroyLoop_cons_untracked conn p rest h, List.filter_cons_of_neg (by simp [h]), ih]
    | true =>
      rw [List.filter_cons_of_pos (by simp [h]), destroyLoop_cons_tracked conn p rest h,
        destroyLoop_cons_tracked conn p _ h, ih]

theorem destroyLoop_tracked_all_not_found (conn : Conn) (l : List (String × ResourceState))
    (h : ∀ p ∈ l, tracked p = true → resolvesToNotFound (conn (getCertificateInput p.2)).2 = true) :
    destroyLoop conn l = none := by
  induction l with
  | nil => rfl
  | cons p rest ih =>
    cases ht : tracked p with
    | false =>
      rw [destroyLoop_cons_untracked conn p rest ht]
      exact ih (fun q hq => h q (List.mem_cons_of_mem _ hq))
    | true =>
      rw [destroyLoop_cons_tracked conn p rest ht, h p (List.mem_cons_self _ _) ht]
      simp

theorem destroyLoop_skip_empty (conn : Conn) (front rest : List (String × ResourceState))
    (h : ∀ p ∈ front, tracked p = true → conn (getCertificateInput p.2) = (none, none)) :
    destroyLoop conn (front ++ rest) = destroyLoop conn rest := by
  induction front with
  | nil => rfl
  | cons p ps ih =>
    have ihp := ih (fun q hq => h q (List.mem_cons_of_mem _ hq))
    cases ht : tracked p with
    | false => rw [List.cons_append, destroyLoop_cons_untracked conn p _ ht, ihp]
    | true =>
      rw [List.cons_append, destroyLoop_cons_tracked conn p _ ht, h p (List.mem_cons_self _ _) ht]
      simpa [resolvesToNotFound, ErrCodeEquals, ErrMessageContains] using ihp

end acmpca

/-! ## SNS topic checks: lemmas -/

namespace sns

open terraform

theorem topicDestroyLoop_cons_untracked (find : Finder) (p : String × ResourceState)
    (rest : List (String × ResourceState)) (h : tracked p = false) :
    destroyLoop find (p :: rest) = destroyLoop find rest := by
  obtain ⟨n, rs⟩ := p
  have h' : rs.Type_ ≠ "aws_sns_topic" := by simpa [tracked] using h
  simp [destroyLoop, h']

theorem topicDestroyLoop_cons_tracked (find : Finder) (p : String × ResourceState)
    (rest : List (String × ResourceState)) (h : tracked p = true) :
    destroyLoop find (p :: rest)
      = if NotFound (find p.2.Primary.ID).2 then destroyLoop find rest
        else if (find p.2.Primary.ID).2 ≠ none then (find p.2.Primary.ID).2
        else some (GoError.errorString ("SNS Topic " ++ p.2.Primary.ID ++ " still exists")) := by
  obtain ⟨n, rs⟩ := p
  have h' : rs.Type_ = "aws_sns_topic" := by simpa [tracked] using h
  rcases hc : find rs.Primary.ID with ⟨attributes, err⟩
  simp [destroyLoop, h', hc]

theorem topicDestroyLoop_cons_tracked_ne_none (find : Finder) (p : String × ResourceState)
    (rest : List (String × ResourceState)) (h : tracked p = true)
    (hnf : NotFound (find p.2.Primary.ID).2 = false) :
    destroyLoop find (p :: rest) ≠ none := by
  rw [topicDestroyLoop_cons_tracked find p rest h, hnf]
  by_cases he : (find p.2.Primary.ID).2 = none
  · simp [he]
  · simp [he]

end sns

/-! ## SNS topic checks: the claims -/

namespace sns

open terraform

/-- C5: for every state, `testAccCheckTopicDestroy` returns nil if and only if the lookup of
every resource of type `aws_sns_topic` in the state returns a not-found error; a single topic
whose lookup succeeds, or fails with another error, makes the check fail. -/
theorem C5_topic_destroy_nil_iff_all_not_found (find : Finder) (s : State) :
    testAccCheckTopicDestroy find s = none
      ↔ ∀ p ∈ s.Resources, p.2.Type_ = "aws_sns_topic"
          → NotFound (find p.2.Primary.ID).2 = true := by
  unfold testAccCheckTopicDestroy
  induction s.Resources with
  | nil => simp [destroyLoop]
  | cons p rest ih =>
    cases ht : tracked p with
    | false =>
      have hty : p.2.Type_ ≠ "aws_sns_topic" := by simpa [tracked] using ht
      rw [topicDestroyLoop_cons_untracked find p rest ht, ih]
      constructor
      · intro h q hq
        rcases List.mem_cons.mp hq with rfl | hq'
        · intro hq2
          exact absurd hq2 hty
        · exact h q hq'
      · intro h q hq
        exact h q (List.mem_cons_of_mem _ hq)
    | true =>
      have hty : p.2.Type_ = "aws_sns_topic" := by simpa [tracked] using ht
      cases hnf : NotFound (find p.2.Primary.ID).2 with
      | false =>
        constructor
        · intro h
          exact absurd h (topicDestroyLoop_cons_tracked_ne_none find p rest ht hnf)
        · intro h
          have := h p (List.mem_cons_self _ _) hty
          rw [hnf] at this
          exact absurd this (by simp)
      | true =>
        rw [topicDestroyLoop_cons_tracked find p rest ht, hnf]
        simp only [if_true]
        rw [ih]
        constructor
        · intro h q hq
          rcases List.mem_cons.mp hq with rfl | hq'
          · intro _
            exact hnf
          · exact h q hq'
        · intro h q hq
          exact h q (List.mem_cons_of_mem _ hq)

end sns

/-! ## ACM PCA certificate checks: the claims -/

namespace acmpca

open terraform

/-- Counterexample to C6 as stated: the lookup of `arn:b` returns a certificate, yet the
check, which visits `arn:a` first and gets an access error for it, returns that error, whose
text does not name `arn:b`. -/
theorem C6_destroy_names_every_survivor_counterexample :
    (connDeniedThenFound (getCertificateInput certB)).2 = none
      ∧ (connDeniedThenFound (getCertificateInput certB)).1 ≠ none
      ∧ testAccCheckAwsAcmpcaCertificateDestroy connDeniedThenFound stateAB
        = some (GoError.awsErr "AccessDeniedException" "not authorized")
      ∧ stringsContains (GoError.awsErr "AccessDeniedException" "not authorized").Error
          certB.Primary.ID = false := by
  decide

/-- The early return of the destroy check at a concrete state: `arn:a`, visited first, is not
found and the loop returns nil without looking at `arn:b`, whose lookup returns a
certificate. -/
theorem destroy_returns_at_first_not_found :
    (connGoneThenFound (getCertificateInput certB)).1 = some issued
      ∧ (connGoneThenFound (getCertificateInput certB)).2 = none
      ∧ testAccCheckAwsAcmpcaCertificateDestroy connGoneThenFound stateAB = none := by
  decide

/-- C6 as amended: (1) if the lookup of every tracked certificate resolves to NotFound, the
check succeeds; (2) if the lookup of a tracked certificate returns a certificate (no error,
non-nil output) and every tracked certificate visited before it returned neither an error nor
an output, the check fails with the error naming that certificate, whatever the certificates
visited after it return. -/
theorem C6_destroy_succeeds_on_all_not_found_and_names_first_survivor :
    (∀ (conn : Conn) (s : State),
        (∀ p ∈ s.Resources, p.2.Type_ = "aws_acmpca_certificate"
          → resolvesToNotFound (conn (getCertificateInput p.2)).2 = true)
        → testAccCheckAwsAcmpcaCertificateDestroy conn s = none)
      ∧ (∀ (conn : Conn) (s : State) (front : List (String × ResourceState)) (n : String)
          (rs : ResourceState) (rest : List (String × ResourceState)),
        s.Resources.filter tracked = front ++ (n, rs) :: rest
        → (∀ p ∈ front, conn (getCertificateInput p.2) = (none, none))
        → (conn (getCertificateInput rs)).2 = none
        → (conn (getCertificateInput rs)).1 ≠ none
        → testAccCheckAwsAcmpcaCertificateDestroy conn s
            = some (GoError.errorString
                ("ACM PCA Certificate (" ++ rs.Primary.ID ++ ") still exists"))) := by
  constructor
  · intro conn s h
    apply destroyLoop_tracked_all_not_found
    intro p hp ht
    exact h p hp (by simpa [tracked] using ht)
  · intro conn s front n rs rest hs hfront herr hout
    have ht : tracked (n, rs) = true := by
      have hmem : (n, rs) ∈ s.Resources.filter tracked := by
        rw [hs]
        simp
      exact (List.mem_filter.mp hmem).2
    unfold testAccCheckAwsAcmpcaCertificateDestroy
    rw [destroyLoop_filter, hs, destroyLoop_skip_empty conn front _ (fun p hp _ => hfront p hp),
      destroyLoop_cons_tracked conn (n, rs) rest ht]
    simp [herr, hout, resolvesToNotFound, ErrCodeEquals, ErrMessageContains]

/-- Witness of amended C6: both certificates are found, `arn:a` is visited first and named. -/
theorem C6_destroy_succeeds_on_all_not_found_and_names_first_survivor_witness :
    stateAB.Resources.filter tracked
        = [] ++ ("aws_acmpca_certificate.a", certA) :: [("aws_acmpca_certificate.b", certB)]
      ∧ (connFound (getCertificateInput certA)).2 = none
      ∧ (connFound (getCertificateInput certA)).1 ≠ none
      ∧ testAccCheckAwsAcmpcaCertificateDestroy connFound stateAB
        = some (GoError.errorString
            ("ACM PCA Certificate (" ++ certA.Primary.ID ++ ") still exists")) :=
  ⟨by decide, rfl, by decide,
    C6_destroy_succeeds_on_all_not_found_and_names_first_survivor.2 connFound stateAB []
      "aws_acmpca_certificate.a" certA [("aws_acmpca_certificate.b", certB)]
      (by decide) (by simp) rfl (by decide)⟩

/-- C7: a lookup error with code `InvalidStateException` whose message contains "not in the
correct state to have issued certificates" is treated as NotFound: for a state whose only
tracked certificate yields that error, the check returns nil. -/
theorem C7_wrong_state_error_is_not_found (conn : Conn) (s : State) (n : String)
    (rs : ResourceState) (output : Option GetCertificateOutput) (message : String)
    (honly : s.Resources.filter tracked = [(n, rs)])
    (hlookup : conn (getCertificateInput rs)
      = (output, some (GoError.awsErr "InvalidStateException" message)))
    (hmessage : stringsContains message
      "not in the correct state to have issued certificates" = true) :
    testAccCheckAwsAcmpcaCertificateDestroy conn s = none := by
  have ht : tracked (n, rs) = true := by
    have hmem : (n, rs) ∈ s.Resources.filter tracked := by simp [honly]
    exact (List.mem_filter.mp hmem).2
  unfold testAccCheckAwsAcmpcaCertificateDestroy
  rw [destroyLoop_filter, honly, destroyLoop_cons_tracked conn (n, rs) [] ht]
  simp [hlookup, resolvesToNotFound, ErrMessageContains, ErrCodeInvalidStateException, hmessage]

/-- Witness of C7: the state with the authority and one certificate, whose lookup yields the
documented error. -/
theorem C7_wrong_state_error_is_not_found_witness :
    stateA.Resources.filter tracked = [("aws_acmpca_certificate.a", certA)]
      ∧ stringsContains
          "The certificate authority is not in the correct state to have issued certificates"
          "not in the correct state to have issued certificates" = true
      ∧ testAccCheckAwsAcmpcaCertificateDestroy connWrongState stateA = none :=
  ⟨by decide, by decide,
    C7_wrong_state_error_is_not_found connWrongState stateA "aws_acmpca_certificate.a" certA none
      "The certificate authority is not in the correct state to have issued certificates"
      (by decide) rfl (by decide)⟩

/-- C8: if the lookup of the first tracked certificate visited fails with an error `e` that
is neither a `ResourceNotFoundException` nor an `InvalidStateException` containing the
documented substring, the check returns exactly `e`. -/
theorem C8_other_error_returned_verbatim (conn : Conn) (s : State) (n : String)
    (rs : ResourceState) (rest : List (String × ResourceState))
    (output : Option GetCertificateOutput) (e : GoError)
    (hfirst : s.Resources.filter tracked = (n, rs) :: rest)
    (hlookup : conn (getCertificateInput rs) = (output, some e))
    (hcode : ErrCodeEquals (some e) ErrCodeResourceNotFoundException = false)
    (hmessage : ErrMessageContains (some e) ErrCodeInvalidStateException
      "not in the correct state to have issued certificates" = false) :
    testAccCheckAwsAcmpcaCertificateDestroy conn s = some e := by
  have ht : tracked (n, rs) = true := by
    have hmem : (n, rs) ∈ s.Resources.filter tracked := by simp [hfirst]
    exact (List.mem_filter.mp hmem).2
  unfold testAccCheckAwsAcmpcaCertificateDestroy
  rw [destroyLoop_filter, hfirst, destroyLoop_cons_tracked conn (n, rs) rest ht]
  simp [hlookup, resolvesToNotFound, hcode, hmessage]

/-- Witness of C8: an `InvalidStateException` with another message is returned as it is. -/
theorem C8_other_error_returned_verbatim_witness :
    stateAB.Resources.filter tracked
        = ("aws_acmpca_certificate.a", certA) :: [("aws_acmpca_certificate.b", certB)]
      ∧ ErrMessageContains
          (some (GoError.awsErr "InvalidStateException" "The certificate authority is disabled"))
          ErrCodeInvalidStateException
          "not in the correct state to have issued certificates" = false
      ∧ testAccCheckAwsAcmpcaCertificateDestroy connOtherState stateAB
        = some (GoError.awsErr "InvalidStateException" "The certificate authority is disabled") :=
  ⟨by decide, by decide,
    C8_other_error_returned_verbatim connOtherState stateAB "aws_acmpca_certificate.a" certA
      [("aws_acmpca_certificate.b", certB)] none
      (GoError.awsErr "InvalidStateException" "The certificate authority is disabled")
      (by decide) rfl (by decide) (by decide)⟩

/-- C9: `testAccCheckAwsAcmpcaCertificateExists(resourceName)` returns nil if and only if
`resourceName` is present in the state, the `GetCertificate` lookup returns no error, the
output is non-nil and its `Certificate` field is non-nil; otherwise it returns an error. -/
theorem C9_exists_nil_iff (Quote : String → String) (conn : Conn) (resourceName : String)
    (s : State) :
    testAccCheckAwsAcmpcaCertificateExists Quote conn resourceName s = none
      ↔ ∃ rs, s.Resources.lookup resourceName = some rs
          ∧ (conn (getCertificateInput rs)).2 = none
          ∧ ∃ out, (conn (getCertificateInput rs)).1 = some out ∧ out.Certificate ≠ none := by
  unfold testAccCheckAwsAcmpcaCertificateExists
  cases hl : s.Resources.lookup resourceName with
  | none => simp
  | some rs =>
    rcases hc : conn (getCertificateInput rs) with ⟨output, err⟩
    cases err with
    | some e => simp [hc]
    | none =>
      cases output with
      | none => simp [hc]
      | some out =>
        by_cases hcert : out.Certificate = none
        · simp [hc, hcert]
        · simp [hc, hcert]

end acmpca

/-! ## The filter translation: lemmas -/

namespace imagebuilder

theorem addFilterBlock_keys (name : String) (values : List String)
    (m : List (String × List String)) :
    (addFilterBlock name values m).map Prod.fst
      = if name ∈ m.map Prod.fst then m.map Prod.fst else m.map Prod.fst ++ [name] := by
  induction m with
  | nil => simp [addFilterBlock]
  | cons kv rest ih =>
    obtain ⟨k, vs⟩ := kv
    by_cases hk : k = name
    · simp [addFilterBlock, hk]
    · have hk' : ¬ name = k := fun h => hk h.symm
      by_cases hmem : name ∈ rest.map Prod.fst
      · simp only [addFilterBlock, hk, if_false, List.map_cons, ih, hmem, if_true,
          List.mem_cons, or_true]
      · simp only [addFilterBlock, hk, if_false, List.map_cons, ih, hmem, List.mem_cons,
          hk', or_self, List.cons_append]

theorem addFilterBlock_keys_nodup (name : String) (values : List String)
    (m : List (String × List String)) (h : (m.map Prod.fst).Nodup) :
    ((addFilterBlock name values m).map Prod.fst).Nodup := by
  rw [addFilterBlock_keys]
  by_cases hmem : name ∈ m.map Prod.fst
  · simpa [hmem] using h
  · simp only [hmem, if_false]
    exact List.Nodup.append h (List.nodup_singleton _) (by simpa using hmem)

theorem mem_addFilterBlock_keys (name : String) (values : List String)
    (m : List (String × List String)) (k : String) :
    k ∈ (addFilterBlock name values m).map Prod.fst ↔ k ∈ m.map Prod.fst ∨ k = name := by
  rw [addFilterBlock_keys]
  by_cases hmem : name ∈ m.map Prod.fst
  · simp only [hmem, if_true]
    constructor
    · intro h
      exact Or.inl h
    · rintro (h | h)
      · exact h
      · rw [h]
        exact hmem
  · simp [hmem]

theorem mem_addFilterBlock (name : String) (values : List String)
    (m : List (String × List String)) (h : (m.map Prod.fst).Nodup) (k : String)
    (vs : List String) (hmem : (k, vs) ∈ addFilterBlock name values m) :
    (k ≠ name ∧ (k, vs) ∈ m)
      ∨ (k = name ∧ ((∃ old, (name, old) ∈ m ∧ vs = old ++ values)
          ∨ (name ∉ m.map Prod.fst ∧ vs = values))) := by
  induction m with
  | nil =>
    simp only [addFilterBlock, List.mem_singleton, Prod.mk.injEq] at hmem
    exact Or.inr ⟨hmem.1, Or.inr ⟨by simp, hmem.2⟩⟩
  | cons kv rest ih =>
    obtain ⟨k0, vs0⟩ := kv
    have hnd : k0 ∉ rest.map Prod.fst ∧ (rest.map Prod.fst).Nodup := by
      rw [List.map_cons] at h
      exact List.nodup_cons.mp h
    by_cases hk : k0 = name
    · simp only [addFilterBlock, hk, if_true, List.mem_cons, Prod.mk.injEq] at hmem
      rcases hmem with ⟨h1, h2⟩ | hrest
      · exact Or.inr ⟨h1, Or.inl ⟨vs0, by simp [hk], h2⟩⟩
      · have hkne : k ≠ name := by
          intro hkn
          apply hnd.1
          rw [hk, ← hkn]
          exact List.mem_map_of_mem Prod.fst hrest
        exact Or.inl ⟨hkne, List.mem_cons_of_mem _ hrest⟩
    · simp only [addFilterBlock, hk, if_false, List.mem_cons, Prod.mk.injEq] at hmem
      rcases hmem with ⟨h1, h2⟩ | hrest
      · exact Or.inl ⟨by rw [h1]; exact hk, by simp [h1, h2]⟩
      · rcases ih hnd.2 hrest with ⟨h1, h2⟩ | ⟨h1, h2⟩
        · exact Or.inl ⟨h1, List.mem_cons_of_mem _ h2⟩
        · refine Or.inr ⟨h1, ?_⟩
          rcases h2 with ⟨old, ho, hv⟩ | ⟨hn, hv⟩
          · exact Or.inl ⟨old, List.mem_cons_of_mem _ ho, hv⟩
          · refine Or.inr ⟨?_, hv⟩
            simp only [List.map_cons, List.mem_cons, not_or]
            exact ⟨fun hh => hk hh.symm, hn⟩

theorem valuesOf_append_singleton (name : String) (blocks : List FilterBlock)
    (b : FilterBlock) :
    valuesOf name (blocks ++ [b])
      = valuesOf name blocks ++ (if b.name = name then b.values else []) := by
  unfold valuesOf
  by_cases hb : b.name = name
  · simp [List.filter_append, hb, List.flatMap_append]
  · simp [List.filter_append, hb]

theorem valuesOf_of_not_mem (name : String) (blocks : List FilterBlock)
    (h : name ∉ blocks.map (fun b => b.name)) : valuesOf name blocks = [] := by
  unfold valuesOf
  have hf : blocks.filter (fun b => decide (b.name = name)) = [] := by
    rw [List.filter_eq_nil_iff]
    intro b hb hbn
    apply h
    rw [List.mem_map]
    exact ⟨b, hb, by simpa using hbn⟩
  rw [hf]
  rfl

/-- The name-to-values mapping built from the filter blocks. -/
theorem filterMapping_spec (blocks : List FilterBlock) :
    ((blocks.foldl (fun m b => addFilterBlock b.name b.values m) []).map Prod.fst).Nodup
      ∧ (∀ k, k ∈ (blocks.foldl (fun m b => addFilterBlock b.name b.values m) []).map Prod.fst
          ↔ k ∈ blocks.map (fun b => b.name))
      ∧ (∀ k vs, (k, vs) ∈ blocks.foldl (fun m b => addFilterBlock b.name b.values m) []
          → vs = valuesOf k blocks) := by
  induction blocks using List.reverseRecOn with
  | nil => simp
  | append_singleton init b ih =>
    obtain ⟨hnd, hkeys, hvals⟩ := ih
    rw [List.foldl_append]
    simp only [List.foldl_cons, List.foldl_nil]
    refine ⟨addFilterBlock_keys_nodup _ _ _ hnd, ?_, ?_⟩
    · intro k
      rw [mem_addFilterBlock_keys, hkeys k]
      simp
    · intro k vs hmem
      rw [valuesOf_append_singleton]
      rcases mem_addFilterBlock _ _ _ hnd k vs hmem with ⟨h1, h2⟩ | ⟨h1, h2⟩
      · have hne : ¬ b.name = k := fun hh => h1 hh.symm
        simp [hne, hvals k vs h2]
      · rcases h2 with ⟨old, ho, hv⟩ | ⟨hn, hv⟩
        · rw [hv, h1, hvals _ _ ho]
          simp
        · have hnot : b.name ∉ init.map (fun b => b.name) := fun hh => hn ((hkeys _).mpr hh)
          rw [hv, h1, valuesOf_of_not_mem _ _ hnot]
          simp

theorem listInput_filters (d : ResourceData) :
    (listInput d).Filters = ImagebuilderFilters d.filter := by
  unfold listInput
  by_cases h : d.filter = []
  · simp [h, ImagebuilderFilters]
  · simp [h]

end imagebuilder

/-! ## Image Builder data source: request and error claims -/

namespace imagebuilder

/-- The request built from three filter blocks, two of them for the same name. -/
theorem listInput_filteredData :
    (listInput filteredData).Filters
      = [{ Name := some "name", Values := [some "a", some "b", some "c"] },
          { Name := some "arn", Values := [some "x"] }] := by
  decide

/-- Counterexample to C11 as stated: the list call fails with a throttling error, and what
the caller receives is one diagnostic whose text is not the error's text. -/
theorem C11_error_propagated_unchanged_counterexample :
    (clientErr.ImageBuilderConn (listInput freshData)).err
        = some (GoError.awsErr "ThrottlingException" "Rate exceeded")
      ∧ (dataSourceDistributionConfigurationsRead freshData clientErr).2
        = [{ Severity := Severity.Error,
             Summary := "reading Image Builder Distribution Configurations: "
               ++ "ThrottlingException: Rate exceeded",
             Detail := "" }]
      ∧ (dataSourceDistributionConfigurationsRead freshData clientErr).2.map
          (fun dg => dg.Summary)
        ≠ [(GoError.awsErr "ThrottlingException" "Rate exceeded").Error] := by
  decide

/-- C11 as amended: when the page-fetching call fails with an error `e`, the read handler
stops (the resource data is not written) and hands `e` to its caller wrapped in one error
diagnostic, whose summary is "reading Image Builder Distribution Configurations: " followed
by the text of `e`. -/
theorem C11_error_propagated_as_diagnostic (d : ResourceData) (client : AWSClient)
    (e : GoError) (h : (client.ImageBuilderConn (listInput d)).err = some e) :
    (dataSourceDistributionConfigurationsRead d client).1 = d
      ∧ ∃ dg, (dataSourceDistributionConfigurationsRead d client).2 = [dg]
          ∧ dg.Severity = Severity.Error
          ∧ dg.Summary = "reading Image Builder Distribution Configurations: " ++ e.Error := by
  rw [read_of_err d client e h]
  exact ⟨rfl, _, rfl, rfl, rfl⟩

/-- Witness of amended C11: the call that delivers one page and then fails. -/
theorem C11_error_propagated_as_diagnostic_witness :
    (clientErr.ImageBuilderConn (listInput freshData)).err
        = some (GoError.awsErr "ThrottlingException" "Rate exceeded")
      ∧ (dataSourceDistributionConfigurationsRead freshData clientErr).1 = freshData :=
  ⟨rfl, (C11_error_propagated_as_diagnostic freshData clientErr
    (GoError.awsErr "ThrottlingException" "Rate exceeded") rfl).1⟩

/-- C12: when no `filter` block is configured, the read handler issues exactly one list
request and it carries no filters at all; what the handler returns is what the connection
answers to that filter-less request: its error as the error diagnostic, or else the ARNs and
names of the pages it delivers. -/
theorem C12_no_filter_block_no_filters (d : ResourceData) (h : d.filter = []) :
    listInput d = { Filters := [], MaxResults := none, NextToken := none }
      ∧ dataSourceDistributionConfigurationsReadRequests d
        = [{ Filters := [], MaxResults := none, NextToken := none }]
      ∧ (∀ (client : AWSClient) (e : GoError),
          (client.ImageBuilderConn { Filters := [], MaxResults := none, NextToken := none }).err
            = some e
          → dataSourceDistributionConfigurationsRead d client
            = (d, AppendErrorf [] "reading Image Builder Distribution Configurations: " e))
      ∧ (∀ client : AWSClient,
          (client.ImageBuilderConn { Filters := [], MaxResults := none, NextToken := none }).err
            = none
          → dataSourceDistributionConfigurationsRead d client
            = (((d.SetId client.Region).Set "arns"
                  (projectResults (accumulate (client.ImageBuilderConn
                    { Filters := [], MaxResults := none, NextToken := none }).pages)).1).Set
                "names"
                  (projectResults (accumulate (client.ImageBuilderConn
                    { Filters := [], MaxResults := none, NextToken := none }).pages)).2,
               []))
      ∧ ∀ client client' : AWSClient, client.Region = client'.Region
          → client.ImageBuilderConn { Filters := [], MaxResults := none, NextToken := none }
            = client'.ImageBuilderConn { Filters := [], MaxResults := none, NextToken := none }
          → dataSourceDistributionConfigurationsRead d client
            = dataSourceDistributionConfigurationsRead d client' := by
  have hin : listInput d = { Filters := [], MaxResults := none, NextToken := none } := by
    simp [listInput, h]
  refine ⟨hin, ?_, ?_, ?_, ?_⟩
  · rw [dataSourceDistributionConfigurationsReadRequests, hin]
  · intro client e he
    rw [← hin] at he
    exact read_of_err d client e he
  · intro client hok
    rw [← hin] at hok ⊢
    exact read_of_ok d client hok
  · intro client client' hregion hconn
    simp only [dataSourceDistributionConfigurationsRead, hin, hregion, hconn]

/-- Witness of C12: the resource data without filter blocks, read by a client whose list
call fails: the one request has no filters and its error is what the handler reports. -/
theorem C12_no_filter_block_no_filters_witness :
    freshData.filter = []
      ∧ dataSourceDistributionConfigurationsReadRequests freshData
        = [{ Filters := [], MaxResults := none, NextToken := none }]
      ∧ dataSourceDistributionConfigurationsRead freshData clientErr
        = (freshData, AppendErrorf [] "reading Image Builder Distribution Configurations: "
            (GoError.awsErr "ThrottlingException" "Rate exceeded")) :=
  ⟨rfl, (C12_no_filter_block_no_filters freshData rfl).2.1,
    (C12_no_filter_block_no_filters freshData rfl).2.2.1 clientErr
      (GoError.awsErr "ThrottlingException" "Rate exceeded") rfl⟩

/-- C16: for every `filter` input, the filters placed on the list request are exactly one
wire-format filter object per distinct filter name (as many objects as distinct names, no
name twice), each carrying that name's values in their input order. -/
theorem C16_one_filter_per_distinct_name (d : ResourceData) :
    (listInput d).Filters.length = ((d.filter.map (fun b => b.name)).toFinset).card
      ∧ ((listInput d).Filters.map (fun f => f.Name)).Nodup
      ∧ (∀ f ∈ (listInput d).Filters, ∃ n, n ∈ d.filter.map (fun b => b.name)
          ∧ f = { Name := some n, Values := (valuesOf n d.filter).map some })
      ∧ (∀ n ∈ d.filter.map (fun b => b.name),
          ({ Name := some n, Values := (valuesOf n d.filter).map some } : Filter)
            ∈ (listInput d).Filters) := by
  obtain ⟨hnd, hkeys, hvals⟩ := filterMapping_spec d.filter
  rw [listInput_filters]
  unfold ImagebuilderFilters
  refine ⟨?_, ?_, ?_, ?_⟩
  · rw [List.length_map, ← List.length_map _ Prod.fst, ← List.toFinset_card_of_nodup hnd]
    congr 1
    ext k
    simp only [List.mem_toFinset]
    exact hkeys k
  · rw [List.map_map]
    have hcomp : ((fun f : Filter => f.Name)
        ∘ fun kv : String × List String => ({ Name := some kv.1, Values := kv.2.map some } : Filter))
        = some ∘ Prod.fst := rfl
    rw [hcomp, ← List.map_map]
    exact List.Nodup.map (Option.some_injective _) hnd
  · intro f hf
    rw [List.mem_map] at hf
    obtain ⟨kv, hkv, rfl⟩ := hf
    refine ⟨kv.1, (hkeys kv.1).mp (List.mem_map_of_mem Prod.fst hkv), ?_⟩
    rw [hvals kv.1 kv.2 hkv]
  · intro n hn
    have hmem := (hkeys n).mpr hn
    rw [List.mem_map] at hmem
    obtain ⟨kv, hkv, hk1⟩ := hmem
    rw [List.mem_map]
    refine ⟨kv, hkv, ?_⟩
    rw [hvals kv.1 kv.2 hkv, hk1]

/-- C17: when the paginated list call fails with error `e`, the diagnostics returned are the
incoming (empty) diagnostics plus exactly one error, whose text is "reading Image Builder
Distribution Configurations: " followed by the message of `e`, which is thus kept intact as
a suffix. -/
theorem C17_error_diagnostic_text (d : ResourceData) (client : AWSClient) (e : GoError)
    (h : (client.ImageBuilderConn (listInput d)).err = some e) :
    (dataSourceDistributionConfigurationsRead d client).2
        = ([] : Diagnostics)
          ++ [{ Severity := Severity.Error,
                Summary := "reading Image Builder Distribution Configurations: " ++ e.Error,
                Detail := "" }]
      ∧ ((dataSourceDistributionConfigurationsRead d client).2.filter
          (fun dg => decide (dg.Severity = Severity.Error))).length = 1
      ∧ (∀ dg ∈ (dataSourceDistributionConfigurationsRead d client).2,
          e.Error.data <:+ dg.Summary.data)
      ∧ (dataSourceDistributionConfigurationsRead d client).2.HasError = true := by
  rw [read_of_err d client e h]
  refine ⟨rfl, by simp [AppendErrorf], ?_, by simp [AppendErrorf, Diagnostics.HasError]⟩
  intro dg hdg
  simp only [AppendErrorf, List.nil_append, List.mem_singleton] at hdg
  rw [hdg]
  simp only [String.data_append]
  exact List.suffix_append _ _

/-- Witness of C17: the throttling error after one delivered page. -/
theorem C17_error_diagnostic_text_witness :
    (clientErr.ImageBuilderConn (listInput freshData)).err
        = some (GoError.awsErr "ThrottlingException" "Rate exceeded")
      ∧ (dataSourceDistributionConfigurationsRead freshData clientErr).2
        = ([] : Diagnostics)
          ++ [{ Severity := Severity.Error,
                Summary := "reading Image Builder Distribution Configurations: "
                  ++ (GoError.awsErr "ThrottlingException" "Rate exceeded").Error,
                Detail := "" }] :=
  ⟨rfl, (C17_error_diagnostic_text freshData clientErr
    (GoError.awsErr "ThrottlingException" "Rate exceeded") rfl).1⟩

end imagebuilder

/-! ## SNS topic checks: further lemmas -/

namespace sns

open terraform

theorem topicDestroyLoop_filter (find : Finder) (l : List (String × ResourceState)) :
    destroyLoop find l = destroyLoop find (l.filter tracked) := by
  induction l with
  | nil => rfl
  | cons p rest ih =>
    cases h : tracked p with
    | false =>
      rw [topicDestroyLoop_cons_untracked find p rest h, List.filter_cons_of_neg (by simp [h]), ih]
    | true =>
      rw [List.filter_cons_of_pos (by simp [h]), topicDestroyLoop_cons_tracked find p rest h,
        topicDestroyLoop_cons_tracked find p _ h, ih]

theorem topicDestroyLoop_eq_none_iff (find : Finder) (l : List (String × ResourceState)) :
    destroyLoop find l = none
      ↔ ∀ p ∈ l, tracked p = true → NotFound (find p.2.Primary.ID).2 = true := by
  induction l with
  | nil => simp [destroyLoop]
  | cons p rest ih =>
    simp only [List.forall_mem_cons]
    cases ht : tracked p with
    | false =>
      rw [topicDestroyLoop_cons_untracked find p rest ht, ih]
      simp
    | true =>
      cases hnf : NotFound (find p.2.Primary.ID).2 with
      | false =>
        have hne := topicDestroyLoop_cons_tracked_ne_none find p rest ht hnf
        simp [hne]
      | true =>
        rw [topicDestroyLoop_cons_tracked find p rest ht, hnf, if_pos rfl, ih]
        simp

theorem topicDestroyLoopCalls_cons_untracked (find : Finder) (p : String × ResourceState)
    (rest : List (String × ResourceState)) (h : tracked p = false) :
    destroyLoopCalls find (p :: rest) = destroyLoopCalls find rest := by
  obtain ⟨n, rs⟩ := p
  have h' : rs.Type_ ≠ "aws_sns_topic" := by simpa [tracked] using h
  simp [destroyLoopCalls, h']

theorem topicDestroyLoopCalls_cons_tracked (find : Finder) (p : String × ResourceState)
    (rest : List (String × ResourceState)) (h : tracked p = true) :
    destroyLoopCalls find (p :: rest)
      = if NotFound (find p.2.Primary.ID).2 then p.2.Primary.ID :: destroyLoopCalls find rest
        else [p.2.Primary.ID] := by
  obtain ⟨n, rs⟩ := p
  have h' : rs.Type_ = "aws_sns_topic" := by simpa [tracked] using h
  rcases hc : find rs.Primary.ID with ⟨attributes, err⟩
  simp [destroyLoopCalls, h', hc]

theorem topicDestroyLoopCalls_prefix (find : Finder) (l : List (String × ResourceState)) :
    destroyLoopCalls find l <+: (l.filter tracked).map (fun p => p.2.Primary.ID) := by
  induction l with
  | nil => simp [destroyLoopCalls]
  | cons p rest ih =>
    cases ht : tracked p with
    | false =>
      rw [topicDestroyLoopCalls_cons_untracked find p rest ht,
        List.filter_cons_of_neg (by simp [ht])]
      exact ih
    | true =>
      rw [topicDestroyLoopCalls_cons_tracked find p rest ht,
        List.filter_cons_of_pos (by simp [ht]), List.map_cons]
      by_cases hnf : NotFound (find p.2.Primary.ID).2 = true
      · rw [if_pos hnf]
        exact (List.prefix_cons_inj _).mpr ih
      · rw [if_neg hnf]
        exact (List.prefix_cons_inj _).mpr (List.nil_prefix)

/-- The result of the destroy loop is decided by the finder's answers to the recorded
lookups. -/
theorem topicDestroyLoop_depends_on_calls (find find' : Finder)
    (l : List (String × ResourceState))
    (h : ∀ c ∈ destroyLoopCalls find l, find c = find' c) :
    destroyLoop find l = destroyLoop find' l := by
  induction l with
  | nil => rfl
  | cons p rest ih =>
    cases ht : tracked p with
    | false =>
      rw [topicDestroyLoopCalls_cons_untracked find p rest ht] at h
      rw [topicDestroyLoop_cons_untracked find p rest ht,
        topicDestroyLoop_cons_untracked find' p rest ht]
      exact ih h
    | true =>
      rw [topicDestroyLoopCalls_cons_tracked find p rest ht] at h
      rw [topicDestroyLoop_cons_tracked find p rest ht,
        topicDestroyLoop_cons_tracked find' p rest ht]
      by_cases hnf : NotFound (find p.2.Primary.ID).2 = true
      · rw [if_pos hnf] at h
        have hp : find p.2.Primary.ID = find' p.2.Primary.ID := h _ (List.mem_cons_self _ _)
        rw [← hp, ih (fun c hc => h c (List.mem_cons_of_mem _ hc))]
      · rw [if_neg hnf] at h
        have hp : find p.2.Primary.ID = find' p.2.Primary.ID := h _ (List.mem_singleton_self _)
        rw [← hp, if_neg hnf, if_neg hnf]

end sns

/-! ## ACM PCA certificate checks: further lemmas -/

namespace acmpca

open terraform

theorem destroyLoopCalls_cons_untracked (conn : Conn) (p : String × ResourceState)
    (rest : List (String × ResourceState)) (h : tracked p = false) :
    destroyLoopCalls conn (p :: rest) = destroyLoopCalls conn rest := by
  obtain ⟨n, rs⟩ := p
  have h' : rs.Type_ ≠ "aws_acmpca_certificate" := by simpa [tracked] using h
  simp [destroyLoopCalls, h']

theorem destroyLoopCalls_cons_tracked (conn : Conn) (p : String × ResourceState)
    (rest : List (String × ResourceState)) (h : tracked p = true) :
    destroyLoopCalls conn (p :: rest)
      = if resolvesToNotFound (conn (getCertificateInput p.2)).2 then [getCertificateInput p.2]
        else if (conn (getCertificateInput p.2)).2 ≠ none then [getCertificateInput p.2]
        else if (conn (getCertificateInput p.2)).1 ≠ none then [getCertificateInput p.2]
        else getCertificateInput p.2 :: destroyLoopCalls conn rest := by
  obtain ⟨n, rs⟩ := p
  have h' : rs.Type_ = "aws_acmpca_certificate" := by simpa [tracked] using h
  rcases hc : conn (getCertificateInput rs) with ⟨output, err⟩
  simp only [destroyLoopCalls, h', hc, resolvesToNotFound]
  by_cases h1 : ErrCodeEquals err ErrCodeResourceNotFoundException = true
  · simp [h1]
  · by_cases h2 : ErrMessageContains err ErrCodeInvalidStateException
        "not in the correct state to have issued certificates" = true
    · simp [h1, h2]
    · simp [h1, h2]

theorem destroyLoopCalls_prefix (conn : Conn) (l : List (String × ResourceState)) :
    destroyLoopCalls conn l <+: (l.filter tracked).map (fun p => getCertificateInput p.2) := by
  induction l with
  | nil => simp [destroyLoopCalls]
  | cons p rest ih =>
    cases ht : tracked p with
    | false =>
      rw [destroyLoopCalls_cons_untracked conn p rest ht, List.filter_cons_of_neg (by simp [ht])]
      exact ih
    | true =>
      rw [destroyLoopCalls_cons_tracked conn p rest ht, List.filter_cons_of_pos (by simp [ht]),
        List.map_cons]
      split_ifs
      · exact (List.prefix_cons_inj _).mpr (List.nil_prefix)
      · exact (List.prefix_cons_inj _).mpr (List.nil_prefix)
      · exact (List.prefix_cons_inj _).mpr (List.nil_prefix)
      · exact (List.prefix_cons_inj _).mpr ih

/-- The result of the destroy loop is decided by the connection's answers to the recorded
requests. -/
theorem destroyLoop_depends_on_calls (conn conn' : Conn) (l : List (String × ResourceState))
    (h : ∀ c ∈ destroyLoopCalls conn l, conn c = conn' c) :
    destroyLoop conn l = destroyLoop conn' l := by
  induction l with
  | nil => rfl
  | cons p rest ih =>
    cases ht : tracked p with
    | false =>
      rw [destroyLoopCalls_cons_untracked conn p rest ht] at h
      rw [destroyLoop_cons_untracked conn p rest ht, destroyLoop_cons_untracked conn' p rest ht]
      exact ih h
    | true =>
      rw [destroyLoopCalls_cons_tracked conn p rest ht] at h
      have hp : conn (getCertificateInput p.2) = conn' (getCertificateInput p.2) := by
        apply h
        split_ifs <;> simp
      rw [destroyLoop_cons_tracked conn p rest ht, destroyLoop_cons_tracked conn' p rest ht, ← hp]
      by_cases h1 : resolvesToNotFound (conn (getCertificateInput p.2)).2 = true
      · rw [if_pos h1, if_pos h1]
      · by_cases h2 : (conn (getCertificateInput p.2)).2 ≠ none
        · rw [if_neg h1, if_neg h1, if_pos h2, if_pos h2]
        · by_cases h3 : (conn (getCertificateInput p.2)).1 ≠ none
          · rw [if_neg h1, if_neg h1, if_neg h2, if_neg h2, if_pos h3, if_pos h3]
          · rw [if_neg h1, if_neg h2, if_neg h3] at h
            rw [if_neg h1, if_neg h1, if_neg h2, if_neg h2, if_neg h3, if_neg h3]
            exact ih (fun c hc => h c (List.mem_cons_of_mem _ hc))

/-- The result of the exists check is decided by the connection's answers to the recorded
requests. -/
theorem exists_depends_on_calls (Quote : String → String) (conn conn' : Conn)
    (resourceName : String) (s : State)
    (h : ∀ c ∈ testAccCheckAwsAcmpcaCertificateExistsCalls resourceName s, conn c = conn' c) :
    testAccCheckAwsAcmpcaCertificateExists Quote conn resourceName s
      = testAccCheckAwsAcmpcaCertificateExists Quote conn' resourceName s := by
  unfold testAccCheckAwsAcmpcaCertificateExists
  unfold testAccCheckAwsAcmpcaCertificateExistsCalls at h
  cases hl : s.Resources.lookup resourceName with
  | none => rfl
  | some rs =>
    rw [hl] at h
    have hp : conn (getCertificateInput rs) = conn' (getCertificateInput rs) :=
      h _ (List.mem_singleton_self _)
    simp only [hp]

end acmpca

/-! ## SNS topic checks: further claims -/

namespace sns

open terraform

/-- C13: for every state in which at least one tracked `aws_sns_topic` resolves to Found and
no lookup of a tracked topic returns an error other than not-found, `testAccCheckTopicDestroy`
fails with the message "SNS Topic <id> still exists", where <id> is the identifier of a
tracked topic of the state whose lookup resolved to Found. -/
theorem C13_topic_destroy_names_a_found_topic (find : Finder) (s : State)
    (hfound : ∃ p ∈ s.Resources, p.2.Type_ = "aws_sns_topic" ∧ (find p.2.Primary.ID).2 = none)
    (hno : ∀ p ∈ s.Resources, p.2.Type_ = "aws_sns_topic"
      → (find p.2.Primary.ID).2 = none ∨ NotFound (find p.2.Primary.ID).2 = true) :
    ∃ p ∈ s.Resources, p.2.Type_ = "aws_sns_topic" ∧ (find p.2.Primary.ID).2 = none
      ∧ testAccCheckTopicDestroy find s
        = some (GoError.errorString ("SNS Topic " ++ p.2.Primary.ID ++ " still exists")) := by
  obtain ⟨l⟩ := s
  simp only [testAccCheckTopicDestroy] at *
  induction l with
  | nil =>
    obtain ⟨p, hp, _⟩ := hfound
    simp at hp
  | cons q rest ih =>
    have hrest : (∃ p ∈ rest, p.2.Type_ = "aws_sns_topic" ∧ (find p.2.Primary.ID).2 = none)
        → ∃ p ∈ q :: rest, p.2.Type_ = "aws_sns_topic" ∧ (find p.2.Primary.ID).2 = none
          ∧ destroyLoop find rest
            = some (GoError.errorString ("SNS Topic " ++ p.2.Primary.ID ++ " still exists")) := by
      intro hf
      obtain ⟨p, hp, h1, h2, h3⟩ := ih hf (fun p hp => hno p (List.mem_cons_of_mem _ hp))
      exact ⟨p, List.mem_cons_of_mem _ hp, h1, h2, h3⟩
    cases ht : tracked q with
    | false =>
      have hty : q.2.Type_ ≠ "aws_sns_topic" := by simpa [tracked] using ht
      rw [topicDestroyLoop_cons_untracked find q rest ht]
      apply hrest
      obtain ⟨p, hp, h1, h2⟩ := hfound
      rcases List.mem_cons.mp hp with rfl | hp'
      · exact absurd h1 hty
      · exact ⟨p, hp', h1, h2⟩
    | true =>
      have hty : q.2.Type_ = "aws_sns_topic" := by simpa [tracked] using ht
      rw [topicDestroyLoop_cons_tracked find q rest ht]
      cases hnf : NotFound (find q.2.Primary.ID).2 with
      | true =>
        rw [if_pos rfl]
        apply hrest
        obtain ⟨p, hp, h1, h2⟩ := hfound
        rcases List.mem_cons.mp hp with rfl | hp'
        · rw [h2] at hnf
          simp [NotFound] at hnf
        · exact ⟨p, hp', h1, h2⟩
      | false =>
        have herr : (find q.2.Primary.ID).2 = none := by
          rcases hno q (List.mem_cons_self _ _) hty with h | h
          · exact h
          · rw [hnf] at h
            exact absurd h (by simp)
        refine ⟨q, List.mem_cons_self _ _, hty, herr, ?_⟩
        simp [herr]

/-- Witness of C13: `arn:aws:sns:a` is not found, `arn:aws:sns:b` is found and is named. -/
theorem C13_topic_destroy_names_a_found_topic_witness :
    (findAGone topicB.Primary.ID).2 = none
      ∧ ∃ p ∈ stateTopics.Resources, p.2.Type_ = "aws_sns_topic"
          ∧ (findAGone p.2.Primary.ID).2 = none
          ∧ testAccCheckTopicDestroy findAGone stateTopics
            = some (GoError.errorString ("SNS Topic " ++ p.2.Primary.ID ++ " still exists")) :=
  ⟨by decide,
    C13_topic_destroy_names_a_found_topic findAGone stateTopics
      ⟨("aws_sns_topic.b", topicB), by decide, by decide, by decide⟩ (by decide)⟩

/-- C14: `testAccCheckTopicExists`, `testAccCheckTopicHasPolicy` and
`testAccCheckTopicHasDeliveryPolicy` fail fast on a bad identifier: when the named resource
is absent from the state they return "Not found: <name>", and when its ID is the empty string
they return "No SNS Topic ID is set", in both cases without issuing any lookup (and
`testAccCheckTopicExists` without writing the caller's map). -/
theorem C14_topic_checks_fail_fast (find : Finder) (policyName deliveryPolicyName : String)
    (equivalent : String → String → Bool × Option GoError)
    (suppress : String → String → String → Bool) (n expectedPolicyText : String)
    (v : List (String × String)) (s : State) :
    (s.Resources.lookup n = none →
        testAccCheckTopicExists find n v s
          = ({ err := some (GoError.errorString ("Not found: " ++ n)), lookups := [] }, v)
        ∧ testAccCheckTopicHasPolicy find policyName equivalent n expectedPolicyText s
          = { err := some (GoError.errorString ("Not found: " ++ n)), lookups := [] }
        ∧ testAccCheckTopicHasDeliveryPolicy find deliveryPolicyName suppress n
            expectedPolicyText s
          = { err := some (GoError.errorString ("Not found: " ++ n)), lookups := [] })
      ∧ (∀ rs, s.Resources.lookup n = some rs → rs.Primary.ID = "" →
        testAccCheckTopicExists find n v s
          = ({ err := some (GoError.errorString "No SNS Topic ID is set"), lookups := [] }, v)
        ∧ testAccCheckTopicHasPolicy find policyName equivalent n expectedPolicyText s
          = { err := some (GoError.errorString "No SNS Topic ID is set"), lookups := [] }
        ∧ testAccCheckTopicHasDeliveryPolicy find deliveryPolicyName suppress n
            expectedPolicyText s
          = { err := some (GoError.errorString "No SNS Topic ID is set"), lookups := [] }) := by
  constructor
  · intro h
    simp [testAccCheckTopicExists, testAccCheckTopicHasPolicy,
      testAccCheckTopicHasDeliveryPolicy, h]
  · intro rs h hid
    simp [testAccCheckTopicExists, testAccCheckTopicHasPolicy,
      testAccCheckTopicHasDeliveryPolicy, h, hid]

/-- Witness of C14: a name that is missing from the state, and a topic without id. -/
theorem C14_topic_checks_fail_fast_witness :
    stateTopicNoId.Resources.lookup "aws_sns_topic.missing" = none
      ∧ stateTopicNoId.Resources.lookup "aws_sns_topic.test" = some topicNoId
      ∧ topicNoId.Primary.ID = ""
      ∧ testAccCheckTopicExists findAGone "aws_sns_topic.missing" [] stateTopicNoId
        = ({ err := some (GoError.errorString ("Not found: " ++ "aws_sns_topic.missing")),
             lookups := [] }, [])
      ∧ testAccCheckTopicExists findAGone "aws_sns_topic.test" [] stateTopicNoId
        = ({ err := some (GoError.errorString "No SNS Topic ID is set"), lookups := [] }, []) :=
  ⟨by decide, by decide, rfl,
    ((C14_topic_checks_fail_fast findAGone "Policy" "DeliveryPolicy"
      (fun _ _ => (true, none)) (fun _ _ _ => true) "aws_sns_topic.missing" "" []
      stateTopicNoId).1 (by decide)).1,
    ((C14_topic_checks_fail_fast findAGone "Policy" "DeliveryPolicy"
      (fun _ _ => (true, none)) (fun _ _ _ => true) "aws_sns_topic.test" "" []
      stateTopicNoId).2 topicNoId (by decide) rfl).1⟩

/-- C18: whether `testAccCheckTopicDestroy` succeeds does not depend on the order in which
the state's resources are visited: for two visiting orders of the same resources, the check
returns nil under one if and only if it returns nil under the other. -/
theorem C18_topic_destroy_order_independent (find : Finder) (s s' : State)
    (h : s.Resources.Perm s'.Resources) :
    testAccCheckTopicDestroy find s = none ↔ testAccCheckTopicDestroy find s' = none := by
  unfold testAccCheckTopicDestroy
  rw [topicDestroyLoop_eq_none_iff, topicDestroyLoop_eq_none_iff]
  constructor
  · intro hall p hp
    exact hall p (h.mem_iff.mpr hp)
  · intro hall p hp
    exact hall p (h.mem_iff.mp hp)

/-- Witness of C18: the two topics visited in either order, one of them still existing. -/
theorem C18_topic_destroy_order_independent_witness :
    [("aws_sns_topic.a", topicA), ("aws_sns_topic.b", topicB)].Perm
        [("aws_sns_topic.b", topicB), ("aws_sns_topic.a", topicA)]
      ∧ (testAccCheckTopicDestroy findAGone
            { Resources := [("aws_sns_topic.a", topicA), ("aws_sns_topic.b", topicB)] } = none
          ↔ testAccCheckTopicDestroy findAGone
            { Resources := [("aws_sns_topic.b", topicB), ("aws_sns_topic.a", topicA)] } = none) :=
  ⟨List.Perm.swap _ _ _,
    C18_topic_destroy_order_independent findAGone
      { Resources := [("aws_sns_topic.a", topicA), ("aws_sns_topic.b", topicB)] }
      { Resources := [("aws_sns_topic.b", topicB), ("aws_sns_topic.a", topicA)] }
      (List.Perm.swap _ _ _)⟩

end sns

/-! ## Call logs and the resource type: lemmas -/

namespace sns

open terraform

theorem topicDestroyLoopCalls_filter (find : Finder) (l : List (String × ResourceState)) :
    destroyLoopCalls find l = destroyLoopCalls find (l.filter tracked) := by
  induction l with
  | nil => rfl
  | cons p rest ih =>
    cases h : tracked p with
    | false =>
      rw [topicDestroyLoopCalls_cons_untracked find p rest h,
        List.filter_cons_of_neg (by simp [h]), ih]
    | true =>
      rw [List.filter_cons_of_pos (by simp [h]), topicDestroyLoopCalls_cons_tracked find p rest h,
        topicDestroyLoopCalls_cons_tracked find p _ h, ih]

theorem filter_tracked_insert (front back : List (String × ResourceState))
    (p : String × ResourceState) (h : p.2.Type_ ≠ "aws_sns_topic") :
    (front ++ p :: back).filter tracked = (front ++ back).filter tracked := by
  have ht : tracked p = false := by simpa [tracked] using h
  rw [List.filter_append, List.filter_append, List.filter_cons_of_neg (by simp [ht])]

theorem filter_tracked_eq_nil (l : List (String × ResourceState))
    (h : ∀ p ∈ l, p.2.Type_ ≠ "aws_sns_topic") : l.filter tracked = [] := by
  rw [List.filter_eq_nil_iff]
  intro p hp ht
  exact h p hp (by simpa [tracked] using ht)

end sns

namespace acmpca

open terraform

theorem destroyLoopCalls_filter (conn : Conn) (l : List (String × ResourceState)) :
    destroyLoopCalls conn l = destroyLoopCalls conn (l.filter tracked) := by
  induction l with
  | nil => rfl
  | cons p rest ih =>
    cases h : tracked p with
    | false =>
      rw [destroyLoopCalls_cons_untracked conn p rest h, List.filter_cons_of_neg (by simp [h]), ih]
    | true =>
      rw [List.filter_cons_of_pos (by simp [h]), destroyLoopCalls_cons_tracked conn p rest h,
        destroyLoopCalls_cons_tracked conn p _ h, ih]

theorem filter_certificates_insert (front back : List (String × ResourceState))
    (p : String × ResourceState) (h : p.2.Type_ ≠ "aws_acmpca_certificate") :
    (front ++ p :: back).filter tracked = (front ++ back).filter tracked := by
  have ht : tracked p = false := by simpa [tracked] using h
  rw [List.filter_append, List.filter_append, List.filter_cons_of_neg (by simp [ht])]

theorem filter_certificates_eq_nil (l : List (String × ResourceState))
    (h : ∀ p ∈ l, p.2.Type_ ≠ "aws_acmpca_certificate") : l.filter tracked = [] := by
  rw [List.filter_eq_nil_iff]
  intro p hp ht
  exact h p hp (by simpa [tracked] using ht)

end acmpca

/-! ## Both destroy checks and the resource type -/

/-- C20: both destroy checks look only at resources of their own type. For each check:
adding or removing a resource of another type, anywhere in the state, changes neither the
result nor the lookups issued; the lookups issued are lookups of resources of the check's
type, in visiting order; and a state with no resource of the type passes without any
lookup. -/
theorem C20_destroy_checks_look_only_at_own_type :
    (∀ (find : sns.Finder) (front back : List (String × terraform.ResourceState))
        (p : String × terraform.ResourceState), p.2.Type_ ≠ "aws_sns_topic" →
        sns.testAccCheckTopicDestroy find { Resources := front ++ p :: back }
          = sns.testAccCheckTopicDestroy find { Resources := front ++ back }
        ∧ sns.destroyLoopCalls find (front ++ p :: back)
          = sns.destroyLoopCalls find (front ++ back))
      ∧ (∀ (find : sns.Finder) (s : terraform.State),
        sns.destroyLoopCalls find s.Resources
          <+: (s.Resources.filter (fun p => decide (p.2.Type_ = "aws_sns_topic"))).map
            (fun p => p.2.Primary.ID))
      ∧ (∀ (find : sns.Finder) (s : terraform.State), (∀ p ∈ s.Resources, p.2.Type_ ≠ "aws_sns_topic") →
        sns.testAccCheckTopicDestroy find s = none ∧ sns.destroyLoopCalls find s.Resources = [])
      ∧ (∀ (conn : acmpca.Conn) (front back : List (String × terraform.ResourceState))
        (p : String × terraform.ResourceState), p.2.Type_ ≠ "aws_acmpca_certificate" →
        acmpca.testAccCheckAwsAcmpcaCertificateDestroy conn { Resources := front ++ p :: back }
          = acmpca.testAccCheckAwsAcmpcaCertificateDestroy conn { Resources := front ++ back }
        ∧ acmpca.destroyLoopCalls conn (front ++ p :: back)
          = acmpca.destroyLoopCalls conn (front ++ back))
      ∧ (∀ (conn : acmpca.Conn) (s : terraform.State),
        acmpca.destroyLoopCalls conn s.Resources
          <+: (s.Resources.filter (fun p => decide (p.2.Type_ = "aws_acmpca_certificate"))).map
            (fun p => acmpca.getCertificateInput p.2))
      ∧ (∀ (conn : acmpca.Conn) (s : terraform.State),
        (∀ p ∈ s.Resources, p.2.Type_ ≠ "aws_acmpca_certificate") →
        acmpca.testAccCheckAwsAcmpcaCertificateDestroy conn s = none
          ∧ acmpca.destroyLoopCalls conn s.Resources = []) := by
  refine ⟨?_, ?_, ?_, ?_, ?_, ?_⟩
  · intro find front back p hp
    unfold sns.testAccCheckTopicDestroy
    constructor
    · rw [sns.topicDestroyLoop_filter, sns.filter_tracked_insert front back p hp,
        ← sns.topicDestroyLoop_filter]
    · rw [sns.topicDestroyLoopCalls_filter, sns.filter_tracked_insert front back p hp,
        ← sns.topicDestroyLoopCalls_filter]
  · intro find s
    exact sns.topicDestroyLoopCalls_prefix find s.Resources
  · intro find s h
    unfold sns.testAccCheckTopicDestroy
    rw [sns.topicDestroyLoop_filter, sns.topicDestroyLoopCalls_filter,
      sns.filter_tracked_eq_nil _ h]
    exact ⟨rfl, rfl⟩
  · intro conn front back p hp
    unfold acmpca.testAccCheckAwsAcmpcaCertificateDestroy
    constructor
    · rw [acmpca.destroyLoop_filter, acmpca.filter_certificates_insert front back p hp,
        ← acmpca.destroyLoop_filter]
    · rw [acmpca.destroyLoopCalls_filter, acmpca.filter_certificates_insert front back p hp,
        ← acmpca.destroyLoopCalls_filter]
  · intro conn s
    exact acmpca.destroyLoopCalls_prefix conn s.Resources
  · intro conn s h
    unfold acmpca.testAccCheckAwsAcmpcaCertificateDestroy
    rw [acmpca.destroyLoop_filter, acmpca.destroyLoopCalls_filter,
      acmpca.filter_certificates_eq_nil _ h]
    exact ⟨rfl, rfl⟩

/-- Witness of C20: removing the queue from the topics' state, and the authority from the
certificates' state, changes neither result. -/
theorem C20_destroy_checks_look_only_at_own_type_witness :
    sns.queue.Type_ ≠ "aws_sns_topic"
      ∧ sns.testAccCheckTopicDestroy sns.findAGone
          { Resources := [] ++ ("aws_sqs_queue.test", sns.queue)
            :: [("aws_sns_topic.a", sns.topicA), ("aws_sns_topic.b", sns.topicB)] }
        = sns.testAccCheckTopicDestroy sns.findAGone
          { Resources := [] ++ [("aws_sns_topic.a", sns.topicA), ("aws_sns_topic.b", sns.topicB)] }
      ∧ acmpca.authority.Type_ ≠ "aws_acmpca_certificate"
      ∧ acmpca.testAccCheckAwsAcmpcaCertificateDestroy acmpca.connFound
          { Resources := [] ++ ("aws_acmpca_certificate_authority.test", acmpca.authority)
            :: [("aws_acmpca_certificate.a", acmpca.certA)] }
        = acmpca.testAccCheckAwsAcmpcaCertificateDestroy acmpca.connFound
          { Resources := [] ++ [("aws_acmpca_certificate.a", acmpca.certA)] } :=
  ⟨by decide,
    (C20_destroy_checks_look_only_at_own_type.1 sns.findAGone []
      [("aws_sns_topic.a", sns.topicA), ("aws_sns_topic.b", sns.topicB)]
      ("aws_sqs_queue.test", sns.queue) (by decide)).1,
    by decide,
    (C20_destroy_checks_look_only_at_own_type.2.2.2.1 acmpca.connFound []
      [("aws_acmpca_certificate.a", acmpca.certA)]
      ("aws_acmpca_certificate_authority.test", acmpca.authority) (by decide)).1⟩

/-! ## Image Builder data source: the successful read -/

namespace imagebuilder

theorem nonNilSummaries_eq_nil (page : Option ListDistributionConfigurationsOutput)
    (h : ∀ p, page = some p → ∀ x ∈ p.DistributionConfigurationSummaryList, x = none) :
    nonNilSummaries page = [] := by
  cases page with
  | none => rfl
  | some p =>
    have hall := h p rfl
    simp only [nonNilSummaries]
    generalize p.DistributionConfigurationSummaryList = l at hall
    induction l with
    | nil => rfl
    | cons x xs ih =>
      have hx : x = none := hall x (List.mem_cons_self _ _)
      rw [hx, List.reduceOption_cons_of_none]
      exact ih (fun y hy => hall y (List.mem_cons_of_mem _ hy))

theorem runPages_no_items (results : List DistributionConfigurationSummary)
    (pages : List (Option ListDistributionConfigurationsOutput × Bool))
    (h : ∀ pg ∈ pages, nonNilSummaries pg.1 = []) :
    runPages pageCallback results pages = results := by
  induction pages with
  | nil => rfl
  | cons pg rest ih =>
    obtain ⟨page, lastPage⟩ := pg
    have hpage : nonNilSummaries page = [] := h (page, lastPage) (List.mem_cons_self _ _)
    cases lastPage with
    | false =>
      rw [runPages_cons_more, hpage, List.append_nil]
      exact ih (fun q hq => h q (List.mem_cons_of_mem _ hq))
    | true => rw [runPages_cons_last, hpage, List.append_nil]

/-- C22: on every successful run of the read handler the id of the data source is the
client's region, whatever the filters supplied and the items returned: two successful reads
with clients of the same region get the same id. -/
theorem C22_id_is_region (d d' : ResourceData) (client client' : AWSClient)
    (h : (client.ImageBuilderConn (listInput d)).err = none)
    (h' : (client'.ImageBuilderConn (listInput d')).err = none)
    (hregion : client.Region = client'.Region) :
    (dataSourceDistributionConfigurationsRead d client).1.Id = client.Region
      ∧ (dataSourceDistributionConfigurationsRead d' client').1.Id
        = (dataSourceDistributionConfigurationsRead d client).1.Id := by
  rw [read_of_ok d client h, read_of_ok d' client' h', hregion]
  simp [ResourceData.Set, ResourceData.SetId]

/-- Witness of C22: a read without filters that returns two items and a read with three
filter blocks, by the same client. -/
theorem C22_id_is_region_witness :
    (clientOk.ImageBuilderConn (listInput freshData)).err = none
      ∧ (clientOk.ImageBuilderConn (listInput filteredData)).err = none
      ∧ (dataSourceDistributionConfigurationsRead freshData clientOk).1.Id = "us-east-1"
      ∧ (dataSourceDistributionConfigurationsRead filteredData clientOk).1.Id
        = (dataSourceDistributionConfigurationsRead freshData clientOk).1.Id :=
  ⟨rfl, rfl, C22_id_is_region freshData filteredData clientOk clientOk rfl rfl rfl⟩

/-- C23: a listing that yields no items is a success: when the list call returns no error
and every delivered page is nil, empty or holds only nil summaries, the read handler returns
no diagnostics, sets the id to the region and sets `arns` and `names` to the empty set. -/
theorem C23_no_items_is_success (d : ResourceData) (client : AWSClient)
    (h : (client.ImageBuilderConn (listInput d)).err = none)
    (hpages : ∀ pg ∈ (client.ImageBuilderConn (listInput d)).pages, ∀ p, pg.1 = some p →
      ∀ x ∈ p.DistributionConfigurationSummaryList, x = none) :
    (dataSourceDistributionConfigurationsRead d client).2 = []
      ∧ (dataSourceDistributionConfigurationsRead d client).2.HasError = false
      ∧ (dataSourceDistributionConfigurationsRead d client).1.Id = client.Region
      ∧ (dataSourceDistributionConfigurationsRead d client).1.arns = ∅
      ∧ (dataSourceDistributionConfigurationsRead d client).1.names = ∅ := by
  have hacc : accumulate (client.ImageBuilderConn (listInput d)).pages = [] := by
    unfold accumulate
    exact runPages_no_items [] _ (fun pg hpg => nonNilSummaries_eq_nil pg.1 (hpages pg hpg))
  rw [read_of_ok d client h, hacc, projectResults_eq]
  simp [ResourceData.Set, ResourceData.SetId, Diagnostics.HasError]

/-- Witness of C23: a nil page, an empty page and a page of nil summaries, read into resource
data that held values before. -/
theorem C23_no_items_is_success_witness :
    (clientNoItems.ImageBuilderConn (listInput staleData)).err = none
      ∧ (dataSourceDistributionConfigurationsRead staleData clientNoItems).2 = []
      ∧ (dataSourceDistributionConfigurationsRead staleData clientNoItems).2.HasError = false
      ∧ (dataSourceDistributionConfigurationsRead staleData clientNoItems).1.Id = "eu-west-1"
      ∧ (dataSourceDistributionConfigurationsRead staleData clientNoItems).1.arns = ∅
      ∧ (dataSourceDistributionConfigurationsRead staleData clientNoItems).1.names = ∅ :=
  ⟨rfl, C23_no_items_is_success staleData clientNoItems rfl (by decide)⟩

end imagebuilder

/-! ## SNS topic exists check: the caller's map -/

namespace sns

open terraform

/-- C21: `testAccCheckTopicExists` writes the caller's attribute map only on success: when
it returns nil the map pointed to by `v` is the attribute map returned by the lookup of the
resource's id, and on every failure path (resource missing from the state, empty ID, lookup
error) the map pointed to by `v` is left unchanged. -/
theorem C21_exists_writes_map_only_on_success (find : Finder) (n : String)
    (v : List (String × String)) (s : State) :
    ((testAccCheckTopicExists find n v s).1.err = none →
        ∃ rs, s.Resources.lookup n = some rs ∧ rs.Primary.ID ≠ ""
          ∧ (find rs.Primary.ID).2 = none
          ∧ (testAccCheckTopicExists find n v s).2 = (find rs.Primary.ID).1)
      ∧ ((testAccCheckTopicExists find n v s).1.err ≠ none →
        (testAccCheckTopicExists find n v s).2 = v)
      ∧ (s.Resources.lookup n = none →
        (testAccCheckTopicExists find n v s).1.err ≠ none
          ∧ (testAccCheckTopicExists find n v s).2 = v)
      ∧ (∀ rs, s.Resources.lookup n = some rs → rs.Primary.ID = "" →
        (testAccCheckTopicExists find n v s).1.err ≠ none
          ∧ (testAccCheckTopicExists find n v s).2 = v)
      ∧ (∀ rs, s.Resources.lookup n = some rs → rs.Primary.ID ≠ "" →
        (find rs.Primary.ID).2 ≠ none →
        (testAccCheckTopicExists find n v s).1.err = (find rs.Primary.ID).2
          ∧ (testAccCheckTopicExists find n v s).2 = v) := by
  unfold testAccCheckTopicExists
  cases hl : s.Resources.lookup n with
  | none => simp
  | some rs =>
    by_cases hid : rs.Primary.ID = ""
    · simp [hid]
    · rcases hf : find rs.Primary.ID with ⟨output, err⟩
      cases err with
      | none => simp [hid, hf]
      | some e => simp [hid, hf]

/-- Witness of C21: the lookup of `arn:aws:sns:b` succeeds and its attributes replace the
caller's map; the lookup of `arn:aws:sns:a` fails and the caller's map is kept. -/
theorem C21_exists_writes_map_only_on_success_witness :
    (testAccCheckTopicExists findAGone "aws_sns_topic.b" [("old", "x")] stateTopics).1.err = none
      ∧ (testAccCheckTopicExists findAGone "aws_sns_topic.b" [("old", "x")] stateTopics).2
        = [("TopicArn", "arn:aws:sns:b")]
      ∧ (testAccCheckTopicExists findAGone "aws_sns_topic.a" [("old", "x")] stateTopics).1.err
        ≠ none
      ∧ (testAccCheckTopicExists findAGone "aws_sns_topic.a" [("old", "x")] stateTopics).2
        = [("old", "x")] :=
  ⟨by decide, by decide, by decide,
    (C21_exists_writes_map_only_on_success findAGone "aws_sns_topic.a" [("old", "x")]
      stateTopics).2.1 (by decide)⟩

end sns

/-! ## ACM PCA certificate checks: exists against destroy -/

namespace acmpca

open terraform

theorem lookup_of_mem_of_nodup_keys (l : List (String × ResourceState)) (n : String)
    (rs : ResourceState) (hkeys : (l.map Prod.fst).Nodup) (hmem : (n, rs) ∈ l) :
    l.lookup n = some rs := by
  induction l with
  | nil => simp at hmem
  | cons q rest ih =>
    obtain ⟨k, r⟩ := q
    rw [List.map_cons] at hkeys
    have hnd := List.nodup_cons.mp hkeys
    rcases List.mem_cons.mp hmem with heq | hrest
    · have hk : n = k := (Prod.mk.injEq _ _ _ _ ▸ heq).1
      have hr : rs = r := (Prod.mk.injEq _ _ _ _ ▸ heq).2
      simp [List.lookup, hk, hr]
    · have hne : n ≠ k := by
        intro hnk
        apply hnd.1
        rw [← hnk]
        exact List.mem_map.mpr ⟨(n, rs), hrest, rfl⟩
      have hbeq : (n == k) = false := by simpa using hne
      simp only [List.lookup, hbeq]
      exact ih hnd.2 hrest

/-- C24: for a state with a single tracked ACM PCA certificate and any lookup outcome, the
exists check of that certificate and the destroy check never both succeed. -/
theorem C24_exists_and_destroy_never_both_succeed (Quote : String → String) (conn : Conn)
    (s : State) (n : String) (rs : ResourceState) (hkeys : (s.Resources.map Prod.fst).Nodup)
    (hsingle : s.Resources.filter tracked = [(n, rs)]) :
    ¬ (testAccCheckAwsAcmpcaCertificateExists Quote conn n s = none
        ∧ testAccCheckAwsAcmpcaCertificateDestroy conn s = none) := by
  have hmem : (n, rs) ∈ s.Resources.filter tracked := by simp [hsingle]
  have ht : tracked (n, rs) = true := (List.mem_filter.mp hmem).2
  have hlookup : s.Resources.lookup n = some rs :=
    lookup_of_mem_of_nodup_keys _ n rs hkeys (List.mem_filter.mp hmem).1
  rintro ⟨hex, hde⟩
  unfold testAccCheckAwsAcmpcaCertificateDestroy at hde
  rw [destroyLoop_filter, hsingle, destroyLoop_cons_tracked conn (n, rs) [] ht] at hde
  unfold testAccCheckAwsAcmpcaCertificateExists at hex
  rw [hlookup] at hex
  rcases hc : conn (getCertificateInput rs) with ⟨output, err⟩
  simp only [hc] at hex hde
  cases err with
  | some e => simp at hex
  | none =>
    cases output with
    | none => simp at hex
    | some out => simp [resolvesToNotFound, ErrCodeEquals, ErrMessageContains] at hde

/-- Witness of C24: the state with the authority and the certificate `arn:a`, which is
found. -/
theorem C24_exists_and_destroy_never_both_succeed_witness :
    (stateA.Resources.map Prod.fst).Nodup
      ∧ stateA.Resources.filter tracked = [("aws_acmpca_certificate.a", certA)]
      ∧ ¬ (testAccCheckAwsAcmpcaCertificateExists (fun id => "\"" ++ id ++ "\"") connFound
            "aws_acmpca_certificate.a" stateA = none
          ∧ testAccCheckAwsAcmpcaCertificateDestroy connFound stateA = none) :=
  ⟨by decide, by decide,
    C24_exists_and_destroy_never_both_succeed (fun id => "\"" ++ id ++ "\"") connFound stateA
      "aws_acmpca_certificate.a" certA (by decide) (by decide)⟩

end acmpca

/-! ## ACM PCA exists check: bad identifiers and outputs without certificate -/

namespace acmpca

open terraform

/-- Counterexample to C19 as stated: the lookup of `arn:b` returns no error and an output
without certificate, and the exists check of that resource fails; the destroy check visits
`arn:a` first, gets an access error for it and returns that error, not the "still exists"
error of `arn:b`. -/
theorem C19_output_without_certificate_counterexample :
    connDeniedThenPending (getCertificateInput certB) = (some pending, none)
      ∧ pending.Certificate = none
      ∧ testAccCheckAwsAcmpcaCertificateExists (fun id => "\"" ++ id ++ "\"")
          connDeniedThenPending "aws_acmpca_certificate.b" stateAB
        = some (GoError.errorString "ACM PCA Certificate \"arn:b\" does not exist")
      ∧ testAccCheckAwsAcmpcaCertificateDestroy connDeniedThenPending stateAB
        = some (GoError.awsErr "AccessDeniedException" "not authorized")
      ∧ testAccCheckAwsAcmpcaCertificateDestroy connDeniedThenPending stateAB
        ≠ some (GoError.errorString
            ("ACM PCA Certificate (" ++ certB.Primary.ID ++ ") still exists"))
      ∧ stringsContains (GoError.awsErr "AccessDeniedException" "not authorized").Error
          "still exists" = false := by
  decide

/-- C19 as amended: for a lookup that returns no error and a non-nil output whose
`Certificate` field is nil, `testAccCheckAwsAcmpcaCertificateExists` fails ("does not
exist"), and `testAccCheckAwsAcmpcaCertificateDestroy`, when that resource is the first
tracked certificate it visits, also fails ("still exists") for the same resource. -/
theorem C19_output_without_certificate_fails_both (Quote : String → String) (conn : Conn)
    (s : State) (n : String) (rs : ResourceState) (rest : List (String × ResourceState))
    (out : GetCertificateOutput)
    (hkeys : (s.Resources.map Prod.fst).Nodup)
    (hfirst : s.Resources.filter tracked = (n, rs) :: rest)
    (hconn : conn (getCertificateInput rs) = (some out, none))
    (hcert : out.Certificate = none) :
    testAccCheckAwsAcmpcaCertificateExists Quote conn n s
        = some (GoError.errorString
            ("ACM PCA Certificate " ++ Quote rs.Primary.ID ++ " does not exist"))
      ∧ testAccCheckAwsAcmpcaCertificateDestroy conn s
        = some (GoError.errorString
            ("ACM PCA Certificate (" ++ rs.Primary.ID ++ ") still exists")) := by
  have hmem : (n, rs) ∈ s.Resources.filter tracked := by simp [hfirst]
  have ht : tracked (n, rs) = true := (List.mem_filter.mp hmem).2
  have hlookup : s.Resources.lookup n = some rs :=
    lookup_of_mem_of_nodup_keys _ n rs hkeys (List.mem_filter.mp hmem).1
  constructor
  · simp [testAccCheckAwsAcmpcaCertificateExists, hlookup, hconn, hcert]
  · unfold testAccCheckAwsAcmpcaCertificateDestroy
    rw [destroyLoop_filter, hfirst, destroyLoop_cons_tracked conn (n, rs) rest ht]
    simp [hconn, resolvesToNotFound, ErrCodeEquals, ErrMessageContains]

/-- Witness of amended C19: the certificate `arn:a`, visited first, whose lookup returns an
output without a certificate. -/
theorem C19_output_without_certificate_fails_both_witness :
    (stateAB.Resources.map Prod.fst).Nodup
      ∧ connPending (getCertificateInput certA) = (some pending, none)
      ∧ pending.Certificate = none
      ∧ testAccCheckAwsAcmpcaCertificateExists (fun id => "\"" ++ id ++ "\"") connPending
          "aws_acmpca_certificate.a" stateAB
        = some (GoError.errorString
            ("ACM PCA Certificate " ++ ("\"" ++ certA.Primary.ID ++ "\"") ++ " does not exist"))
      ∧ testAccCheckAwsAcmpcaCertificateDestroy connPending stateAB
        = some (GoError.errorString
            ("ACM PCA Certificate (" ++ certA.Primary.ID ++ ") still exists")) :=
  ⟨by decide, rfl, rfl,
    C19_output_without_certificate_fails_both (fun id => "\"" ++ id ++ "\"") connPending stateAB
      "aws_acmpca_certificate.a" certA [("aws_acmpca_certificate.b", certB)] pending
      (by decide) (by decide) rfl rfl⟩

end acmpca
